import Mathlib

/-!
# Verification of the price-acquisition engine of `price-monitor-pro`

A shallow embedding of the core of `electron-app/src/main.js`:

* the per-source rate limiter (`RateLimiter.waitIfNeeded`),
* the retry helper (`retryWithBackoff`),
* the search scraper (`scrapeFirstResultPrice`) and URL scraper (`scrapePrice`),
  with their shared response cache,
* the extraction functions (`extractFirstResultWithTitle`,
  `extractPriceFromHtml`), whose regular expressions are transcribed into a
  small pattern language together with a backtracking matcher that follows
  JavaScript regex semantics (leftmost match, greedy/lazy quantifiers),
* the deterministic fallback price generator (`getSearchFallbackPrice`),
* the per-product record/notify step of `checkAllPrices`, and
* the `add-product` IPC handler.

Modelling conventions:

* JavaScript numbers are modelled as `ℚ` (all quantities involved are small
  decimals for which rational arithmetic agrees with binary64 on every
  comparison made by the code); the 32-bit signed wrap-around used by the
  string hash (`hash & hash` after `<< 5`) is modelled exactly on `ℤ`.
* Asynchronous functions are modelled as pure functions from an explicit
  description of the environment (the fetch outcome, the current clock, the
  cache contents) to their result; `resolve(x)` becomes returning `x`.
* The response cache (a JS `Map`) is modelled as a function
  `String → Option CacheEntry`.
* Strings are processed as their character lists; `toLowerCase` is modelled
  on ASCII, which covers every string the code compares against.
-/

namespace PriceMonitor

/-! ## Basic string utilities -/

/-- ASCII lower-casing of one character (model of the effect of JS
`toLowerCase` on the ASCII range, which is all the code compares against). -/
def lowerChar (c : Char) : Char :=
  if 'A' ≤ c ∧ c ≤ 'Z' then Char.ofNat (c.toNat + 32) else c

/-- ASCII lower-casing of a character list. -/
def lowerChars (cs : List Char) : List Char := cs.map lowerChar

/-- Whether `pat` occurs as a contiguous sublist of `cs`
(model of JS `String.prototype.includes`). -/
def containsSub (cs pat : List Char) : Bool :=
  match cs with
  | [] => pat.isEmpty
  | _ :: t => pat.isPrefixOf cs || containsSub t pat

/-- JS `a.includes(b)` on strings. -/
def strIncludes (s pat : String) : Bool := containsSub s.data pat.data

/-- JS `a.toLowerCase().includes(b)` for an ASCII needle `b`. -/
def lowIncludes (s : String) (pat : String) : Bool :=
  containsSub (lowerChars s.data) pat.data

/-- Decimal digit test. -/
def isDigitCh (c : Char) : Bool := '0' ≤ c ∧ c ≤ '9'

/-- JS whitespace test, restricted to the characters that occur here. -/
def isWsCh (c : Char) : Bool := c = ' ' ∨ c = '\t' ∨ c = '\n' ∨ c = '\r'

/-- Model of JS `String.prototype.trim`. -/
def trimChars (cs : List Char) : List Char :=
  ((cs.dropWhile isWsCh).reverse.dropWhile isWsCh).reverse

/-- Value of a digit character. -/
def digitVal (c : Char) : Nat := c.toNat - '0'.toNat

/-- Natural number denoted by a digit list. -/
def digitsToNat (cs : List Char) : Nat :=
  cs.foldl (fun a c => a * 10 + digitVal c) 0

/-! JavaScript numbers are modelled as `ℚ`.  The bundled rational
arithmetic of this toolchain is `@[irreducible]`, which blocks kernel
evaluation, so the model constructs and combines rationals through
`Rat.divInt` and integer arithmetic; `qsub_eq`, `qdiv_eq` and `qmul_eq`
below prove these equal to the standard operations. -/

/-- Exact subtraction on `ℚ` in kernel-reducible form (`qsub_eq`). -/
def qsub (a b : ℚ) : ℚ := Rat.divInt (a.num * b.den - b.num * a.den) (a.den * b.den)

/-- Exact division on `ℚ` in kernel-reducible form (`qdiv_eq`). -/
def qdiv (a b : ℚ) : ℚ := Rat.divInt (a.num * b.den) (a.den * b.num)

/-- Exact multiplication on `ℚ` in kernel-reducible form (`qmul_eq`). -/
def qmul (a b : ℚ) : ℚ := Rat.divInt (a.num * b.num) (a.den * b.den)

/-- Model of JS `parseFloat` on a captured numeric string: digits,
optionally followed by `.` and more digits (the only shapes the regexes
can capture); the value is the exact rational
`intPart + frac / 10 ^ frac.length`. -/
def parseNum (cs : List Char) : ℚ :=
  let intPart := cs.takeWhile isDigitCh
  let rest := cs.drop intPart.length
  let frac := match rest with
    | '.' :: t => t.takeWhile isDigitCh
    | _ => []
  Rat.divInt (digitsToNat intPart * 10 ^ frac.length + digitsToNat frac)
    (10 ^ frac.length)

/-! ## JS 32-bit integer semantics and the string hash

`getSearchFallbackPrice` computes
`hash = ((hash << 5) - hash) + char; hash = hash & hash;`
where `<<` and `&` coerce to a signed 32-bit integer. -/

/-- JS `ToInt32`: wrap an integer into `[-2^31, 2^31)`. -/
def toInt32 (n : ℤ) : ℤ := (n + 2 ^ 31) % 2 ^ 32 - 2 ^ 31

/-- One step of the hash loop: `hash = (toInt32(hash << 5) - hash) + code`,
then `hash = hash & hash` (a second `ToInt32`). -/
def hashStep (h : ℤ) (code : ℕ) : ℤ :=
  toInt32 (toInt32 (h * 32) - h + code)

/-- The string hash of `getSearchFallbackPrice`/`getFallbackPrice`
(`charCodeAt` is the character code; inputs are ASCII). -/
def hashString (s : String) : ℤ :=
  s.data.foldl (fun h c => hashStep h c.toNat) 0

/-! ## Fallback price generator (`getSearchFallbackPrice`, main.js 913-1002)

The function is a pure computation from `(searchTerms, platform)`; the
process state (clock, RNG) is never consulted.  To state this as a theorem
rather than bake it into types, the model threads an explicit `ProcState`
carrying everything ambient the function could have read. -/

/-- One title/price result object. `title` is an `Option` because a cache
entry written by the URL-keyed `scrapePrice` has no `title` field. -/
structure TitlePrice where
  title : Option String
  price : ℚ
deriving DecidableEq, Repr

/-- The ambient process state available to JS code: the clock
(`Date.now()`) and the random generator state (`Math.random`).
`getSearchFallbackPrice` reads neither. -/
structure ProcState where
  now : ℤ
  randSeed : ℕ
deriving DecidableEq, Repr

/-- Model of `platform.charAt(0).toUpperCase() + platform.slice(1)`. -/
def capitalize (s : String) : String :=
  match s.data with
  | [] => ""
  | c :: t => ⟨(if 'a' ≤ c ∧ c ≤ 'z' then Char.ofNat (c.toNat - 32) else c) :: t⟩

/-- The per-platform price multiplier table
(`platformMultiplier[platform] || 1.0`) as a percentage: 0.85 is 85/100
and so on.  Every use is `Math.floor(base * multiplier)` with an integer
`base`, rendered below as `Int.fdiv (base * pct) 100`, which is exactly
`⌊base * (pct / 100)⌋` (and agrees with the binary64 computation on every
entry of this table). -/
def platformMultiplierPct (platform : String) : ℤ :=
  if platform = "ebay" then 85
  else if platform = "amazon" then 100
  else if platform = "walmart" then 90
  else if platform = "bestbuy" then 95
  else if platform = "target" then 95
  else 100

/-- Model of `getSearchFallbackPrice(searchTerms, platform)` (main.js 913-1002),
with an explicit (unused) process state.  All arithmetic results are
integers, so `parseFloat(x.toFixed(2))` is the identity and is dropped. -/
def getSearchFallbackPriceSt (searchTerms platform : String) (_st : ProcState) :
    TitlePrice :=
  let fallbackTitle := searchTerms ++ " - " ++ capitalize platform ++ " Result"
  let hash := hashString searchTerms
  let terms := lowerChars searchTerms.data
  let pct := platformMultiplierPct platform
  let has := fun pat : String => containsSub terms pat.data
  if has "iphone" ∨ has "phone" then
    let basePrice : ℤ := Int.fdiv (350 * pct) 100
    if has "pro max" ∨ has "15" ∨ has "14" then
      let variation : ℤ := |hash| % 200 - 100
      ⟨some fallbackTitle, ((basePrice + 400 + variation : ℤ) : ℚ)⟩
    else if has "13" ∨ has "12" then
      let variation : ℤ := |hash| % 150 - 75
      ⟨some fallbackTitle, ((basePrice + 50 + variation : ℤ) : ℚ)⟩
    else
      let variation : ℤ := |hash| % 100 - 50
      ⟨some fallbackTitle, ((basePrice + variation : ℤ) : ℚ)⟩
  else if has "macbook" ∨ has "laptop" then
    let basePrice : ℤ := Int.fdiv (1000 * pct) 100
    if has "pro" ∨ has "m3" ∨ has "m2" then
      let variation : ℤ := |hash| % 500 - 250
      ⟨some fallbackTitle, ((basePrice + 500 + variation : ℤ) : ℚ)⟩
    else
      let variation : ℤ := |hash| % 300 - 150
      ⟨some fallbackTitle, ((basePrice + variation : ℤ) : ℚ)⟩
  else if has "airpods" ∨ has "headphone" ∨ has "earbuds" then
    let basePrice : ℤ := Int.fdiv (120 * pct) 100
    if has "pro" ∨ has "max" then
      let variation : ℤ := |hash| % 100 - 50
      ⟨some fallbackTitle, ((basePrice + 150 + variation : ℤ) : ℚ)⟩
    else
      let variation : ℤ := |hash| % 50 - 25
      ⟨some fallbackTitle, ((basePrice + variation : ℤ) : ℚ)⟩
  else
    let estimatedPrice : ℤ :=
      if has "gaming" ∨ has "professional" ∨ has "premium" then 200
      else if has "budget" ∨ has "cheap" ∨ has "basic" then 25
      else 50
    let basePrice : ℤ := Int.fdiv (estimatedPrice * pct) 100
    let variation : ℤ :=
      |hash| % max 20 (Int.fdiv (basePrice * 40) 100) -
        Int.fdiv (basePrice * 20) 100
    ⟨some fallbackTitle, ((max 10 (basePrice + variation) : ℤ) : ℚ)⟩

/-- The generator as called by the rest of the code (the process state is
irrelevant; see `getSearchFallbackPrice_deterministic`). -/
def getSearchFallbackPrice (searchTerms platform : String) : TitlePrice :=
  getSearchFallbackPriceSt searchTerms platform ⟨0, 0⟩

/-! ## Rate limiter (`RateLimiter.waitIfNeeded`, main.js 336-361)

Per-key state is an ordered list of recorded timestamps (keys are
independent; one key is modelled).  A sequential caller issues its next
`admit` the moment the previous one resolves.  `admitStep reqs now` returns
the time at which the call resolves (the actual admission time) together
with the new recorded list.  Note the source pushes the pre-wait `now`,
not the admission time. -/

def rateWindowMs : ℤ := 60000
def rateMaxRequests : ℕ := 5

/-- One `waitIfNeeded` call arriving at time `now` against recorded
timestamps `reqs`: filter to the trailing window, wait if full
(until the oldest falls out), then push the (pre-wait) `now`. -/
def admitStep (reqs : List ℤ) (now : ℤ) : ℤ × List ℤ :=
  let recent := reqs.filter (fun t => now - t < rateWindowMs)
  if rateMaxRequests ≤ recent.length then
    match recent with
    | [] => (now, recent ++ [now])
    | oldest :: _ =>
      let waitTime := rateWindowMs - (now - oldest)
      (now + waitTime, recent ++ [now])
  else
    (now, recent ++ [now])

/-- Actual admission times of `n` back-to-back sequential `admit` calls for
one key, the first issued at `t0`, each next call issued at the moment the
previous resolves. -/
def runAdmits : ℕ → List ℤ → ℤ → List ℤ
  | 0, _, _ => []
  | n + 1, reqs, now =>
    let (a, reqs') := admitStep reqs now
    a :: runAdmits n reqs' a

/-- Number of admissions falling in the trailing window `(T - 60000, T]`. -/
def admissionsInWindow (adms : List ℤ) (T : ℤ) : ℕ :=
  (adms.filter (fun a => T - rateWindowMs < a ∧ a ≤ T)).length

/-! ## Record/notify step of `checkAllPrices` (main.js 255-300)

For one product and one check, the code captures the previous best price
(the last history entry), appends the new price, trims the history to the
last 100 entries, and then evaluates the two notification conditions. -/

def historyCap : ℕ := 100

/-- Append one entry and trim to the last `historyCap` entries
(`priceHistory.push(...)` followed by `slice(-100)`). -/
def pushTrim (hist : List ℚ) (price : ℚ) : List ℚ :=
  let h := hist ++ [price]
  if historyCap < h.length then h.drop (h.length - historyCap) else h

/-- One check of one product: new history and the two notification flags
(price-drop, target-reached).  `previousPrice` is the last entry *before*
the push; the JS truthiness guards (`previousPrice &&`,
`product.targetPrice &&`) are the `≠ 0` conditions. -/
def recordCheck (threshold : ℚ) (targetPrice : Option ℚ) (hist : List ℚ)
    (currentPrice : ℚ) : List ℚ × Bool × Bool :=
  let previousPrice := hist.getLast?
  let hist' := pushTrim hist currentPrice
  let dropFired :=
    match previousPrice with
    | some p =>
      decide (p ≠ 0) && decide (currentPrice < p) &&
        decide (threshold ≤ qmul (qdiv (qsub p currentPrice) p) 100)
    | none => false
  let targetFired :=
    match targetPrice with
    | some t => decide (t ≠ 0) && decide (currentPrice ≤ t)
    | none => false
  (hist', dropFired, targetFired)

/-- Run a sequence of checks over a price sequence, collecting the flags
of each check in order. -/
def runChecks (threshold : ℚ) (targetPrice : Option ℚ) :
    List ℚ → List ℚ → List (Bool × Bool) × List ℚ
  | hist, [] => ([], hist)
  | hist, p :: ps =>
    let (hist', flags) := recordCheck threshold targetPrice hist p
    let (rest, finalHist) := runChecks threshold targetPrice hist' ps
    (flags :: rest, finalHist)

/-- The history after recording the price sequence `ps` (history component
of folding `recordCheck`; the flags do not influence the history). -/
def histAfter (ps : List ℚ) : List ℚ := ps.foldl pushTrim []

/-! ## A small pattern language for the extraction regexes

Every regular expression in `extractFirstResultWithTitle` and
`extractPriceFromHtml` is built from: case-insensitive literals, the
character-class stars `[^>]*` / `[^"]*`, the lazy any-character star
`[\s\S]*?`, `\s*`, an optional single character (`\x24?`), and one or two
capture groups of the shapes `(\d+)`, `(\d\x7bm,n\x7d)`,
`(\d+\.?\d*)`, `(\d\x7bm,n\x7d\.?\d\x7b0,k\x7d)` and `([^<]+)`.
The matcher below implements exactly these constructs with JavaScript
semantics: leftmost match, greedy quantifiers preferring the longest
consumption, lazy ones the shortest, with full backtracking. -/

/-- Shape of a capture group. `num lo hi frac`: `lo` to `hi` (unbounded when
`none`) digits, and `frac = some fmax` allows an optional dot followed by at
most `fmax` (unbounded when `none`) digits. `negPlus bad`: one or more
characters none of which is in `bad`. -/
inductive GSpec where
  | num (lo : ℕ) (hi : Option ℕ) (frac : Option (Option ℕ))
  | negPlus (bad : List Char)
deriving DecidableEq, Repr

/-- One token of a pattern. -/
inductive Tok where
  | lit (s : String)
  | negStar (bad : List Char)
  | anyLazy
  | wsStar
  | opt (c : Char)
  | cap (slot : ℕ) (g : GSpec)
deriving DecidableEq, Repr

/-- Captured groups of a match (JS `match[1]`, `match[2]`). -/
structure Caps where
  g1 : Option (List Char) := none
  g2 : Option (List Char) := none
deriving DecidableEq, Repr

/-- Candidate (captured text, remaining input) pairs for a capture group,
listed in JS backtracking preference order (greedy components prefer the
longest consumption; the optional dot is tried with the dot first). -/
def gspecCandidates : GSpec → List Char → List (List Char × List Char)
  | .negPlus bad, cs =>
    let m := (cs.takeWhile (fun c => ¬ bad.contains c)).length
    ((List.range m).map (fun i => m - i)).map (fun k => (cs.take k, cs.drop k))
  | .num lo hi frac, cs =>
    let ds := cs.takeWhile isDigitCh
    let maxd1 := min ds.length (hi.getD ds.length)
    let d1s := ((List.range (maxd1 + 1)).map (fun i => maxd1 - i)).filter (lo ≤ ·)
    d1s.flatMap (fun d1 =>
      let whole := cs.take d1
      let rest1 := cs.drop d1
      match frac with
      | none => [(whole, rest1)]
      | some fmax =>
        let dotCands :=
          match rest1 with
          | '.' :: t =>
            let fd := t.takeWhile isDigitCh
            let m2 := min fd.length (fmax.getD fd.length)
            ((List.range (m2 + 1)).map (fun i => m2 - i)).map
              (fun d2 => (whole ++ '.' :: t.take d2, t.drop d2))
          | _ => []
        let remDigits := ds.drop d1
        let m2n := min remDigits.length (fmax.getD remDigits.length)
        let noDotCands :=
          ((List.range (m2n + 1)).map (fun i => m2n - i)).map
            (fun d2 => (cs.take (d1 + d2), cs.drop (d1 + d2)))
        dotCands ++ noDotCands)

/-- Record a capture in its slot. -/
def setCap (slot : ℕ) (v : List Char) (c : Caps) : Caps :=
  if slot = 1 then { c with g1 := some v } else { c with g2 := some v }

/-- Case-insensitive prefix test for a literal. -/
def litMatches (l cs : List Char) : Bool :=
  decide (l.length ≤ cs.length) &&
    decide (lowerChars (cs.take l.length) = lowerChars l)

/-- Backtracking matcher: try to match the token list at the start of the
input, returning the captures and the remaining input of the first
(preference-ordered) successful alternative.  The fuel decreases on every
recursive call; every path either drops a token or consumes a character, so
`toks.length + cs.length + 1` fuel is always sufficient (`runMatch`). -/
def matchToks : ℕ → List Tok → Caps → List Char → Option (Caps × List Char)
  | 0, _, _, _ => none
  | _ + 1, [], caps, cs => some (caps, cs)
  | fuel + 1, .lit s :: rest, caps, cs =>
    let l := s.data
    if litMatches l cs then matchToks fuel rest caps (cs.drop l.length) else none
  | fuel + 1, .wsStar :: rest, caps, cs =>
    let m := (cs.takeWhile isWsCh).length
    ((List.range (m + 1)).map (fun i => m - i)).findSome?
      (fun k => matchToks fuel rest caps (cs.drop k))
  | fuel + 1, .negStar bad :: rest, caps, cs =>
    let m := (cs.takeWhile (fun c => ¬ bad.contains c)).length
    ((List.range (m + 1)).map (fun i => m - i)).findSome?
      (fun k => matchToks fuel rest caps (cs.drop k))
  | fuel + 1, .opt c :: rest, caps, cs =>
    match cs with
    | c' :: t =>
      if c' = c then
        match matchToks fuel rest caps t with
        | some r => some r
        | none => matchToks fuel rest caps (c' :: t)
      else matchToks fuel rest caps (c' :: t)
    | [] => matchToks fuel rest caps []
  | fuel + 1, .anyLazy :: rest, caps, cs =>
    match matchToks fuel rest caps cs with
    | some r => some r
    | none =>
      match cs with
      | [] => none
      | _ :: t => matchToks fuel (.anyLazy :: rest) caps t
  | fuel + 1, .cap slot g :: rest, caps, cs =>
    (gspecCandidates g cs).findSome?
      (fun cand => matchToks fuel rest (setCap slot cand.1 caps) cand.2)

/-- Match the token list at the start of the input with sufficient fuel. -/
def runMatch (toks : List Tok) (cs : List Char) : Option (Caps × List Char) :=
  matchToks (toks.length + cs.length + 1) toks {} cs

/-- Leftmost match: try each start position from the left. -/
def searchFrom : ℕ → List Tok → List Char → Option (Caps × List Char)
  | 0, _, _ => none
  | fuel + 1, toks, cs =>
    match runMatch toks cs with
    | some r => some r
    | none =>
      match cs with
      | [] => none
      | _ :: t => searchFrom fuel toks t

/-- Model of JS `html.match(re)` (first match, captures). -/
def jsMatch (toks : List Tok) (s : String) : Option Caps :=
  (searchFrom (s.data.length + 1) toks s.data).map (·.1)

/-- Successive non-overlapping leftmost matches (the `exec` loop of a `/g`
regex).  All patterns used here consume at least one character, so the
zero-progress guard never fires. -/
def jsMatchAllAux : ℕ → List Tok → List Char → List Caps
  | 0, _, _ => []
  | fuel + 1, toks, cs =>
    match searchFrom (cs.length + 1) toks cs with
    | some (caps, rest) =>
      if rest.length < cs.length then caps :: jsMatchAllAux fuel toks rest
      else [caps]
    | none => []

/-- Model of the `while ((match = pattern.exec(html)) !== null)` loop. -/
def jsMatchAll (toks : List Tok) (s : String) : List Caps :=
  jsMatchAllAux (s.data.length + 1) toks s.data

/-- Price denoted by a match: `match[2] && !isNaN(match[2])` selects the
two-group form `parseFloat(m1 + "." + m2)`, otherwise `parseFloat(m1)`
(a captured digit group is never empty and never NaN). -/
def capsPrice (c : Caps) : ℚ :=
  match c.g2 with
  | some m2 =>
    if m2.isEmpty then parseNum (c.g1.getD [])
    else parseNum (c.g1.getD [] ++ '.' :: m2)
  | none => parseNum (c.g1.getD [])

/-! ## Transcription of the extraction regexes

Shorthand: `L` a case-insensitive literal, `NG` the class star `[^>]*`,
`NQ` the class star `[^"]*`, `ANY` the lazy star `[\s\S]*?`, `WS` `\s*`,
`D1 k` the group `(\d+)` into slot `k`, `DR k lo hi` the group
`(\d\x7blo,hi\x7d)`, `DF k` the group `(\d+\.?\d*)`, `DRF k lo hi fm` the
group `(\d\x7blo,hi\x7d\.?\d\x7b0,fm\x7d)`, `TCap` the title group
`([^<]+)` into slot 1. -/

def L (s : String) : Tok := .lit s
def NG : Tok := .negStar ['>']
def NQ : Tok := .negStar ['"']
def ANY : Tok := .anyLazy
def WS : Tok := .wsStar
def D1 (slot : ℕ) : Tok := .cap slot (.num 1 none none)
def DR (slot lo hi : ℕ) : Tok := .cap slot (.num lo (some hi) none)
def DF (slot : ℕ) : Tok := .cap slot (.num 1 none (some none))
def DRF (slot lo hi fm : ℕ) : Tok := .cap slot (.num lo (some hi) (some (some fm)))
def TCap : Tok := .cap 1 (.negPlus ['<'])

/-- The ordered Amazon selectors of `extractFirstResultWithTitle`
(main.js 672-695), most specific first. -/
def amazonSelectors : List (List Tok) :=
  [ [L "<div", NG, L "data-component-type=\"s-search-result\"", NG, L ">", ANY,
     L "<span class=\"a-price-whole\">", D1 1, L "</span>", ANY,
     L "<span class=\"a-price-fraction\">", D1 2, L "</span>"],
    [L "<div", NG, L "data-component-type=\"s-search-result\"", NG, L ">", ANY,
     L "<span class=\"a-price-whole\">", D1 1, L "</span>"],
    [L "<div", NG, L "data-component-type=\"s-search-result\"", NG, L ">", ANY,
     L "<span", NG, L "class=\"", NQ, L "a-price", NQ, L "\"", NG, L ">$",
     DF 1, L "</span>"],
    [L "<div", NG, L "s-result-item", NG, L "s-asin", NG, L ">", ANY,
     L "<span class=\"a-price-whole\">", D1 1, L "</span>", ANY,
     L "<span class=\"a-price-fraction\">", D1 2, L "</span>"],
    [L "<div", NG, L "s-result-item", NG, L "s-asin", NG, L ">", ANY,
     L "<span class=\"a-price-whole\">", D1 1, L "</span>"],
    [L "<div", NG, L "s-result-item", NG, L ">", ANY,
     L "<span", NG, L "class=\"", NQ, L "a-price", NQ, L "\"", NG, L ">$",
     DF 1, L "</span>"],
    [L "<span class=\"a-price-symbol\">$</span><span class=\"a-price-whole\">",
     D1 1, L "</span><span class=\"a-price-fraction\">", D1 2, L "</span>"],
    [L "<span class=\"a-price-symbol\">$</span><span class=\"a-price-whole\">",
     D1 1, L "</span>"],
    [L "<span", NG, L "class=\"", NQ, L "a-price a-text-price", NQ, L "\"", NG,
     L ">$", DF 1, L "</span>"],
    [L "<span class=\"a-price-whole\">", D1 1,
     L "</span><span class=\"a-price-fraction\">", D1 2, L "</span>"],
    [L "<span class=\"a-price-whole\">", D1 1, L "</span>"],
    [L "<span", NG, L "class=\"", NQ, L "a-price", NQ, L "\"", NG, L ">$",
     DF 1, L "</span>"],
    [L "$", DR 1 3 4] ]

/-- The three Amazon title patterns tried with a JS `||` chain
(main.js 721-723). -/
def amazonTitleSelectors : List (List Tok) :=
  [ [L "<div", NG, L "data-component-type=\"s-search-result\"", NG, L ">", ANY,
     L "<h2", NG, L "class=\"", NQ, L "a-size-mini", NQ, L "\"", NG, L ">", ANY,
     L "<span", NG, L ">", TCap, L "</span>"],
    [L "<div", NG, L "s-result-item", NG, L ">", ANY, L "<h2", NG, L ">", ANY,
     L "<span", NG, L ">", TCap, L "</span>"],
    [L "<span", NG, L "class=\"", NQ, L "a-size-medium", NQ, L "\"", NG, L ">",
     TCap, L "</span>"] ]

/-- The ordered eBay selectors of `extractFirstResultWithTitle`
(main.js 738-757). -/
def ebaySelectors : List (List Tok) :=
  [ [L "<div", NG, L "class=\"", NQ, L "s-item", NQ, L "\"", NG, L ">", ANY,
     L "<span class=\"s-item__price\"", NG, L ">$", DF 1, L "</span>"],
    [L "<div", NG, L "class=\"", NQ, L "s-item", NQ, L "\"", NG, L ">", ANY,
     L "<span class=\"notranslate\">$", DF 1, L "</span>"],
    [L "<div", NG, L "class=\"", NQ, L "s-item", NQ, L "\"", NG, L ">", ANY,
     L "<span", NG, L ">$", DF 1, L "</span>"],
    [L "<article", NG, L "class=\"", NQ, L "s-item", NQ, L "\"", NG, L ">", ANY,
     L "<span class=\"s-item__price\"", NG, L ">$", DF 1, L "</span>"],
    [L "<li", NG, L "class=\"", NQ, L "s-item", NQ, L "\"", NG, L ">", ANY,
     L "<span class=\"s-item__price\"", NG, L ">$", DF 1, L "</span>"],
    [L "<span class=\"s-item__price\"", NG, L ">$", DF 1, L "</span>"],
    [L "<span class=\"notranslate\">$", DF 1, L "</span>"],
    [L "<span", NG, L "class=\"", NQ, L "price", NQ, L "\"", NG, L ">$",
     DF 1, L "</span>"],
    [L "<span class=\"s-item__price\"", NG, L ">$", DRF 1 3 4 2, L "</span>"],
    [L "<span class=\"notranslate\">$", DRF 1 3 4 2, L "</span>"],
    [L "<span", NG, L ">$", DRF 1 2 4 2, L "</span>"] ]

/-- The three eBay title patterns (main.js 775-777). -/
def ebayTitleSelectors : List (List Tok) :=
  [ [L "<div", NG, L "class=\"", NQ, L "s-item", NQ, L "\"", NG, L ">", ANY,
     L "<div", NG, L "class=\"", NQ, L "s-item__title", NQ, L "\"", NG, L ">",
     TCap, L "</div>"],
    [L "<h3", NG, L "class=\"", NQ, L "s-item__title", NQ, L "\"", NG, L ">",
     TCap, L "</h3>"],
    [L "<span", NG, L "class=\"", NQ, L "BOLD", NQ, L "\"", NG, L ">", TCap,
     L "</span>"] ]

/-- The ordered Walmart selectors (main.js 789-797). -/
def walmartSelectors : List (List Tok) :=
  [ [L "<span", NG, L "class=\"", NQ, L "price-main", NQ, L "\"", NG, L ">",
     ANY, L "$", D1 1, L ".", DR 2 2 2],
    [L "<span", NG, L "aria-label=\"", NQ, L "$", D1 1, L ".", DR 2 2 2, NQ,
     L "\"", NG, L ">"],
    [L "<div", NG, L "data-automation-id=\"product-price\"", NG, L ">", ANY,
     L "$", D1 1, L ".", DR 2 2 2],
    [L "\"priceInfo\":\x7b\"linePrice\":\"", DF 1, L "\""],
    [L "\"currentPrice\":\x7b\"price\":", DF 1],
    [L "$", D1 1, L ".", DR 2 2 2] ]

/-- The ordered Best Buy selectors (main.js 828-836). -/
def bestbuySelectors : List (List Tok) :=
  [ [L "<span", NG, L "class=\"", NQ, L "priceView-hero-price", NQ, L "\"", NG,
     L ">", ANY, L "$", D1 1, L ".", DR 2 2 2],
    [L "<span", NG, L "class=\"", NQ, L "priceView-customer-price", NQ, L "\"",
     NG, L ">", ANY, L "$", D1 1, L ".", DR 2 2 2],
    [L "<div", NG, L "class=\"", NQ, L "pricing-price", NQ, L "\"", NG, L ">",
     ANY, L "$", D1 1, L ".", DR 2 2 2],
    [L "\"salePrice\":", DF 1],
    [L "\"currentPrice\":", DF 1],
    [L "aria-label=\"", NQ, L "$", D1 1, L ".", DR 2 2 2, NQ, L "\""],
    [L "$", D1 1, L ".", DR 2 2 2] ]

/-- The ordered Target selectors (main.js 867-874). -/
def targetSelectors : List (List Tok) :=
  [ [L "<span", NG, L "data-test=\"", NQ, L "product-price", NQ, L "\"", NG,
     L ">", ANY, L "$", D1 1, L ".", DR 2 2 2],
    [L "<span", NG, L "class=\"", NQ, L "Price", NQ, L "\"", NG, L ">", ANY,
     L "$", D1 1, L ".", DR 2 2 2],
    [L "\"price\":\x7b\"current_retail\":", DF 1],
    [L "\"formatted_current_price\":\"$", D1 1, L ".", DR 2 2 2, L "\""],
    [L "data-test=\"current-price\"", NG, L ">", ANY, L "$", D1 1, L ".",
     DR 2 2 2],
    [L "$", D1 1, L ".", DR 2 2 2] ]

/-- The global Amazon patterns of `extractPriceFromHtml` (main.js 1047-1071). -/
def amazonPatterns : List (List Tok) :=
  [ [L "<span class=\"a-price-whole\">", D1 1, L "</span>"],
    [L "<span class=\"a-price a-text-price a-size-medium", NQ, L "\"", NG,
     L ">$", DF 1, L "</span>"],
    [L "<span class=\"a-price-symbol\">$</span><span class=\"a-price-whole\">",
     D1 1, L "</span>"],
    [L "<span", NG, L "class=\"", NQ, L "a-price", NQ, L "\"", NG, L ">",
     .opt '$', DF 1, L "</span>"],
    [L "\"price\":", WS, L "\"", DF 1, L "\""],
    [L "\"priceAmount\":", WS, L "\"", DF 1, L "\""],
    [L "\"lowPrice\":", WS, L "\"", DF 1, L "\""],
    [L "\"highPrice\":", WS, L "\"", DF 1, L "\""],
    [L "data-price=\"", DF 1, L "\""],
    [L "content=\"", DF 1, L "\" name=\"price\""],
    [L "property=\"product:price:amount\" content=\"", DF 1, L "\""],
    [L "<span class=\"a-color-price\">$", DF 1, L "</span>"],
    [L "<span class=\"sx-price\"", NG, L ">$", DF 1, L "</span>"],
    [L ">$", DRF 1 2 4 2, L "<"] ]

/-- The global eBay patterns of `extractPriceFromHtml` (main.js 1091-1110). -/
def ebayPatterns : List (List Tok) :=
  [ [L "<span class=\"s-item__price\"", NG, L ">$", DF 1, L "</span>"],
    [L "<span class=\"notranslate\">$", DF 1, L "</span>"],
    [L "<span class=\"u-flL condText\"", NG, L ">$", DF 1, L "</span>"],
    [L "<span id=\"prcIsum", NQ, L "\"", NG, L ">$", DF 1, L "</span>"],
    [L "<span class=\"cc-ts-BOLD\">$", DF 1, L "</span>"],
    [L "<span class=\"u-flL\">$", DF 1, L "</span>"],
    [L "\"currentPrice\":", WS, L "\x7b", WS, L "\"value\":", WS, DF 1],
    [L "\"price\":", WS, L "\"", DF 1, L "\""],
    [L "\"buyItNowPrice\":", WS, DF 1],
    [L "class=\"", NQ, L "price", NQ, L "\"", NG, L ">$", DF 1],
    [L "$", DRF 1 2 4 2, L "</span>"] ]

/-! ## `extractFirstResultWithTitle` (main.js 666-911)

The function returns a `\x7btitle, price\x7d` object on the Amazon and eBay
branches, a bare number on the Walmart / Best Buy / Target branches, and
`null` when no selector produces a validated price.  The three result shapes
are the three constructors of `ExtractOut`. -/

/-- Dynamic result of `extractFirstResultWithTitle`. -/
inductive ExtractOut where
  | obj (tp : TitlePrice)
  | num (p : ℚ)
  | noRes
deriving DecidableEq, Repr

/-- Query-sensitive minimum used by the Amazon, Walmart, Best Buy and
Target branches (laptops 400, phones 100, default 50). -/
def searchMinPrice (searchTerms : String) : ℚ :=
  if lowIncludes searchTerms "macbook" ∨ lowIncludes searchTerms "laptop" then 400
  else if lowIncludes searchTerms "iphone" ∨ lowIncludes searchTerms "phone" then 100
  else 50

/-- Query-sensitive minimum of the eBay branch (laptops 500, phones 150,
default 50). -/
def ebayMinPrice (searchTerms : String) : ℚ :=
  if lowIncludes searchTerms "macbook" ∨ lowIncludes searchTerms "laptop" then 500
  else if lowIncludes searchTerms "iphone" ∨ lowIncludes searchTerms "phone" then 150
  else 50

/-- Title extraction of the Amazon branch: three patterns chained with `||`,
the winning capture trimmed, a synthesized title otherwise (main.js 721-724). -/
def amazonTitle (html searchTerms : String) : String :=
  let m := (jsMatch (amazonTitleSelectors.get! 0) html).orElse
    (fun _ => (jsMatch (amazonTitleSelectors.get! 1) html).orElse
      (fun _ => jsMatch (amazonTitleSelectors.get! 2) html))
  match m with
  | some c => String.mk (trimChars (c.g1.getD []))
  | none => searchTerms ++ " - Amazon Result"

/-- Title extraction of the eBay branch (main.js 775-778). -/
def ebayTitle (html searchTerms : String) : String :=
  let m := (jsMatch (ebayTitleSelectors.get! 0) html).orElse
    (fun _ => (jsMatch (ebayTitleSelectors.get! 1) html).orElse
      (fun _ => jsMatch (ebayTitleSelectors.get! 2) html))
  match m with
  | some c => String.mk (trimChars (c.g1.getD []))
  | none => searchTerms ++ " - eBay Result"

/-- The Amazon selector loop (main.js 697-734): selectors in order; a match
is validated against the band 10-5000 and then the query minimum; an invalid
candidate continues with the next selector. -/
def amazonLoop (html searchTerms : String) : List (List Tok) → ExtractOut
  | [] => .noRes
  | sel :: rest =>
    match jsMatch sel html with
    | some m =>
      let price := capsPrice m
      if 10 ≤ price ∧ price ≤ 5000 then
        if searchMinPrice searchTerms ≤ price then
          .obj ⟨some (amazonTitle html searchTerms), price⟩
        else amazonLoop html searchTerms rest
      else amazonLoop html searchTerms rest
    | none => amazonLoop html searchTerms rest

/-- The eBay selector loop (main.js 759-785): validation is
`minPrice ≤ price ≤ 5000` in one step. -/
def ebayLoop (html searchTerms : String) : List (List Tok) → ExtractOut
  | [] => .noRes
  | sel :: rest =>
    match jsMatch sel html with
    | some m =>
      let price := capsPrice m
      if ebayMinPrice searchTerms ≤ price ∧ price ≤ 5000 then
        .obj ⟨some (ebayTitle html searchTerms), price⟩
      else ebayLoop html searchTerms rest
    | none => ebayLoop html searchTerms rest

/-- The Walmart / Best Buy / Target selector loops (main.js 799-901): the
same validation as eBay but with `searchMinPrice`, and the loop returns the
bare price, not a title object. -/
def numLoop (html searchTerms : String) : List (List Tok) → ExtractOut
  | [] => .noRes
  | sel :: rest =>
    match jsMatch sel html with
    | some m =>
      let price := capsPrice m
      if searchMinPrice searchTerms ≤ price ∧ price ≤ 5000 then .num price
      else numLoop html searchTerms rest
    | none => numLoop html searchTerms rest

/-- Model of `extractFirstResultWithTitle(html, platform, searchTerms)`
(main.js 666-911). -/
def extractFirstResultWithTitle (html platform searchTerms : String) :
    ExtractOut :=
  if platform = "amazon" then amazonLoop html searchTerms amazonSelectors
  else if platform = "ebay" then ebayLoop html searchTerms ebaySelectors
  else if platform = "walmart" then numLoop html searchTerms walmartSelectors
  else if platform = "bestbuy" then numLoop html searchTerms bestbuySelectors
  else if platform = "target" then numLoop html searchTerms targetSelectors
  else .noRes

/-! ## `extractPriceFromHtml` (main.js 1037-1163)

Unlike the search extraction, this routine collects the candidates of every
pattern (all matches of each, filtered to the band 50-1500 while
collecting), removes duplicates (a JS `Set`, keeping first occurrences),
sorts ascending, and selects from the sorted list. -/

/-- All in-band prices produced by one global pattern, in match order
(the `while (pattern.exec(html))` collection loop with its
`50 <= price <= 1500` filter; these patterns have a single group). -/
def patternPrices (sel : List Tok) (html : String) : List ℚ :=
  ((jsMatchAll sel html).map (fun c => parseNum (c.g1.getD []))).filter
    (fun p => decide (50 ≤ p) && decide (p ≤ 1500))

/-- Concatenation of every pattern's in-band prices, in pattern order
(`prices.push(...patternPrices)`). -/
def collectPrices (pats : List (List Tok)) (html : String) : List ℚ :=
  pats.flatMap (fun sel => patternPrices sel html)

/-- The collected price list for a URL: Amazon patterns for an `amazon.`
URL, eBay patterns for an `ebay.` URL, nothing otherwise. -/
def urlPrices (html url : String) : List ℚ :=
  if strIncludes url "amazon." then collectPrices amazonPatterns html
  else if strIncludes url "ebay." then collectPrices ebayPatterns html
  else []

/-- Duplicate removal keeping first occurrences (a JS `Set` built from an
array preserves insertion order). -/
def jsUniqAux (seen : List ℚ) : List ℚ → List ℚ
  | [] => []
  | p :: t =>
    if seen.contains p then jsUniqAux seen t
    else p :: jsUniqAux (p :: seen) t

/-- Model of `[...new Set(prices)]`. -/
def jsUniq (l : List ℚ) : List ℚ := jsUniqAux [] l

/-- Model of `extractPriceFromHtml(html, url)` (main.js 1037-1163): dedup, sort
ascending (`.sort((a, b) => a - b)`, modelled as a stable sort by `≤`),
then select — with a preferred band for iPhone URLs, otherwise the first
(lowest) price. -/
def extractPriceFromHtml (html url : String) : Option ℚ :=
  let prices := (jsUniq (urlPrices html url)).insertionSort (· ≤ ·)
  if prices.isEmpty then none
  else
    if strIncludes url "iphone" ∨ strIncludes url "iPhone" then
      if strIncludes url "128gb" ∨ strIncludes url "128GB" then
        let ip := prices.filter (fun p => decide (300 ≤ p) && decide (p ≤ 700))
        some (if ip.isEmpty then prices.headD 0 else ip.headD 0)
      else
        let ip := prices.filter (fun p => decide (200 ≤ p) && decide (p ≤ 900))
        some (if ip.isEmpty then prices.headD 0 else ip.headD 0)
    else some (prices.headD 0)

/-! ## URL-keyed fallback (`getFallbackPrice`, main.js 1165-1220)

A deterministic price from the URL hash; all results are integers, so the
final `parseFloat(x.toFixed(2))` is the identity and is dropped. -/

def getFallbackPrice (url : String) : ℚ :=
  let hash := hashString url
  if strIncludes url "iphone" ∨ strIncludes url "iPhone" then
    if strIncludes url "128gb" ∨ strIncludes url "128GB" then
      let basePrice : ℤ := if strIncludes url "ebay" then 360 else 380
      ((basePrice + (|hash| % 60 - 30) : ℤ) : ℚ)
    else if strIncludes url "64gb" ∨ strIncludes url "64GB" then
      let basePrice : ℤ := if strIncludes url "ebay" then 280 else 320
      ((basePrice + (|hash| % 40 - 20) : ℤ) : ℚ)
    else
      let basePrice : ℤ := if strIncludes url "ebay" then 300 else 350
      ((basePrice + (|hash| % 100 - 50) : ℤ) : ℚ)
  else if strIncludes url "laptop" ∨ strIncludes url "macbook" then
    let basePrice : ℤ := if strIncludes url "ebay" then 800 else 1000
    ((basePrice + (|hash| % 200 - 100) : ℤ) : ℚ)
  else if strIncludes url "headphone" ∨ strIncludes url "airpods" then
    let basePrice : ℤ := if strIncludes url "ebay" then 100 else 130
    ((basePrice + (|hash| % 30 - 15) : ℤ) : ℚ)
  else
    let basePrice : ℤ := if strIncludes url "ebay" then 35 else 50
    ((max 10 (basePrice + (|hash| % 20 - 10)) : ℤ) : ℚ)

/-! ## Response cache and the two scrapers

`priceCache` is one shared JS `Map`; the search scraper keys it by
`platform + "-" + searchTerms` (entries carry a title), the URL scraper by
the URL itself (entries carry no title).  A cached entry is served while
younger than the 5-minute TTL.  The network interaction of one call is
summarised by a `FetchOutcome`; every failure outcome resolves the fallback
value without touching the cache. -/

/-- One cache entry (`\x7btitle, price, timestamp\x7d`; `title` is absent
in entries written by `scrapePrice`). -/
structure CacheEntry where
  title : Option String
  price : ℚ
  timestamp : ℤ
deriving DecidableEq, Repr

/-- The cache as a partial map from keys to entries. -/
def Cache := String → Option CacheEntry

/-- The empty cache. -/
def emptyCache : Cache := fun _ => none

/-- Model of `priceCache.set(key, e)`. -/
def cacheSet (c : Cache) (k : String) (e : CacheEntry) : Cache :=
  fun k' => if k' = k then some e else c k'

/-- Cache TTL in milliseconds (5 minutes). -/
def cacheTTLMs : ℤ := 300000

/-- What one HTTP request did: a non-200 status, a timeout, a request or
stream error, a parse throw, or a 200 body. -/
inductive FetchOutcome where
  | notOk
  | timeout
  | reqError
  | streamError
  | parseError
  | ok (html : String)
deriving DecidableEq, Repr

/-- The five platforms for which `scrapeFirstResultPrice` builds a search
URL; any other platform resolves `null` (main.js 376-390). -/
def supportedPlatform (p : String) : Bool :=
  p = "amazon" ∨ p = "ebay" ∨ p = "walmart" ∨ p = "bestbuy" ∨ p = "target"

/-- The search cache key (main.js 396). -/
def searchCacheKey (platform searchTerms : String) : String :=
  platform ++ "-" ++ searchTerms

/-- The cache-miss part of `scrapeFirstResultPrice` (main.js 442-524): on a
200 body, run the extraction and accept it only when it is an object with a
positive price (`extractedResult && extractedResult.price > 0` — a bare
number has no `price` field); the accepted result is cached; everything
else resolves the search fallback and leaves the cache alone. -/
def scrapeFetch (searchTerms platform : String) (now : ℤ)
    (outcome : FetchOutcome) (cache : Cache) : Option TitlePrice × Cache :=
  match outcome with
  | .ok html =>
    match extractFirstResultWithTitle html platform searchTerms with
    | .obj tp =>
      if 0 < tp.price then
        (some tp,
          cacheSet cache (searchCacheKey platform searchTerms)
            ⟨tp.title, tp.price, now⟩)
      else (some (getSearchFallbackPrice searchTerms platform), cache)
    | _ => (some (getSearchFallbackPrice searchTerms platform), cache)
  | _ => (some (getSearchFallbackPrice searchTerms platform), cache)

/-- Model of `scrapeFirstResultPrice(searchTerms, platform)` (main.js 366-525):
unsupported platform resolves `null`; otherwise a fresh cache entry is
served, and a miss or stale entry goes to the network
(the rate-limiter admission precedes all of this and does not affect the
resolved value). -/
def scrapeFirstResultPrice (searchTerms platform : String) (now : ℤ)
    (outcome : FetchOutcome) (cache : Cache) : Option TitlePrice × Cache :=
  if supportedPlatform platform then
    match cache (searchCacheKey platform searchTerms) with
    | some e =>
      if now - e.timestamp < cacheTTLMs then (some ⟨e.title, e.price⟩, cache)
      else scrapeFetch searchTerms platform now outcome cache
    | none => scrapeFetch searchTerms platform now outcome cache
  else (none, cache)

/-- The cache-miss part of `scrapePrice` (main.js 582-656): accept the
extracted price when truthy and positive, cache it (no title), otherwise
resolve the URL fallback. -/
def scrapePriceFetch (url : String) (now : ℤ) (outcome : FetchOutcome)
    (cache : Cache) : ℚ × Cache :=
  match outcome with
  | .ok html =>
    match extractPriceFromHtml html url with
    | some p =>
      if p ≠ 0 ∧ 0 < p then (p, cacheSet cache url ⟨none, p, now⟩)
      else (getFallbackPrice url, cache)
    | none => (getFallbackPrice url, cache)
  | _ => (getFallbackPrice url, cache)

/-- Model of `scrapePrice(url)` (main.js 527-664).  `urlValid` is whether
`new URL(url)` succeeds; a throw is caught and resolves the fallback.
Every path resolves a number — never `null`. -/
def scrapePrice (url : String) (urlValid : Bool) (now : ℤ)
    (outcome : FetchOutcome) (cache : Cache) : ℚ × Cache :=
  if urlValid then
    match cache url with
    | some e =>
      if now - e.timestamp < cacheTTLMs then (e.price, cache)
      else scrapePriceFetch url now outcome cache
    | none => scrapePriceFetch url now outcome cache
  else (getFallbackPrice url, cache)

/-! ## `retryWithBackoff` (main.js 308-333)

The helper is defined in the source but has no caller; it is modelled here
to compare its policy with what the acquisition actually does.  The
`fn` of attempt `k` either returns a value (`null` modelled as
`ret none`) or throws. -/

/-- Result of one attempt of the retried function. -/
inductive AttemptRes (α : Type) where
  | ret (v : Option α)
  | thrown
deriving DecidableEq

/-- Outcome of the retry loop: the returned value (`Except.error` when the
final attempt's exception propagates), the backoff delays slept, and the
number of attempts consumed. -/
structure RetryOut (α : Type) where
  result : Except Unit (Option α)
  delays : List ℤ
  attemptsUsed : ℕ

/-- The `for (attempt = 1; attempt <= maxRetries; ...)` loop, structurally
over the list of attempt numbers: a non-null result returns immediately; a
null result or an exception sleeps `initialDelay * 2 ^ (attempt - 1)`
unless the attempt was the last; a last thrown attempt rethrows; falling
out of the loop returns null. -/
def retryLoop (fn : ℕ → AttemptRes α) (maxRetries : ℕ) (initialDelay : ℤ) :
    List ℕ → List ℤ → RetryOut α
  | [], delays => ⟨.ok none, delays, maxRetries⟩
  | attempt :: rest, delays =>
    match fn attempt with
    | .ret (some v) => ⟨.ok (some v), delays, attempt⟩
    | .ret none =>
      if attempt < maxRetries then
        retryLoop fn maxRetries initialDelay rest
          (delays ++ [initialDelay * 2 ^ (attempt - 1)])
      else retryLoop fn maxRetries initialDelay rest delays
    | .thrown =>
      if attempt < maxRetries then
        retryLoop fn maxRetries initialDelay rest
          (delays ++ [initialDelay * 2 ^ (attempt - 1)])
      else ⟨.error (), delays, attempt⟩

/-- Model of `retryWithBackoff(fn, maxRetries, initialDelay)`: the loop over
attempts `1 .. maxRetries`. -/
def retryWithBackoff (fn : ℕ → AttemptRes α) (maxRetries : ℕ)
    (initialDelay : ℤ) : RetryOut α :=
  retryLoop fn maxRetries initialDelay (List.range' 1 maxRetries) []

/-- Result of one fetch-and-extract pipeline attempt as §4.3 defines it:
the accepted extraction of a 200 body, `null` on every failure. -/
def pipelineResult (searchTerms platform : String) (outcome : FetchOutcome) :
    Option TitlePrice :=
  match outcome with
  | .ok html =>
    match extractFirstResultWithTitle html platform searchTerms with
    | .obj tp => if 0 < tp.price then some tp else none
    | _ => none
  | _ => none

/-- Modelled from the spec (acquisition steps 3-5 of §4.5, which the code
does not implement): on a cache miss the pipeline is wrapped in
`retryWithBackoff` with 3 attempts and a 1-second doubling backoff, attempt
`k` seeing the `k`-th network outcome; a produced result is cached and
returned, and the fallback is invoked only after every attempt failed. -/
def acquireSpec (searchTerms platform : String) (now : ℤ)
    (outcomes : ℕ → FetchOutcome) (cache : Cache) : Option TitlePrice × Cache :=
  if supportedPlatform platform then
    match cache (searchCacheKey platform searchTerms) with
    | some e =>
      if now - e.timestamp < cacheTTLMs then (some ⟨e.title, e.price⟩, cache)
      else acquireSpecMiss
    | none => acquireSpecMiss
  else (none, cache)
where
  acquireSpecMiss : Option TitlePrice × Cache :=
    match (retryWithBackoff
        (fun k => .ret (pipelineResult searchTerms platform (outcomes (k - 1))))
        3 1000).result with
    | .ok (some tp) =>
      (some tp,
        cacheSet cache (searchCacheKey platform searchTerms)
          ⟨tp.title, tp.price, now⟩)
    | _ => (some (getSearchFallbackPrice searchTerms platform), cache)

/-! ## The `add-product` IPC handler (main.js 1304-1449)

The handler validates the request in a fixed order (missing fields, no
platform selected, invalid target price, free-tier capacity, duplicate
query), then scrapes each selected platform and commits the product.  Every
rejection happens before `products.push`, so the store is untouched on
every error path. -/

/-- Free-tier product ceiling (`APP_CONFIG.maxProductsFree`). -/
def maxProductsFree : ℕ := 3

/-- Configured drop threshold (`APP_CONFIG.priceDropThreshold`). -/
def priceDropThreshold : ℚ := 5

/-- One per-platform result row stored on the product. -/
structure PlatformResult where
  platform : String
  title : Option String
  url : String
  price : ℚ
deriving DecidableEq, Repr

/-- A stored product (the fields the handler writes; timestamps beyond the
id are omitted, and the search URL is stored unescaped —
`encodeURIComponent` is not modelled as no claim depends on it). -/
structure Product where
  id : ℤ
  name : String
  searchTerms : String
  platAmazon : Bool
  platEbay : Bool
  targetPrice : Option ℚ
  currentPrice : ℚ
  bestPrice : ℚ
  platformResults : List PlatformResult
  priceHistory : List ℚ
deriving DecidableEq, Repr

/-- An `add-product` request.  A missing or empty string field are both
falsy in JS, so both are modelled by `""`; a missing `platforms` object is
`none`. -/
structure ProductData where
  searchTerms : String
  name : String
  platforms : Option (Bool × Bool)
  targetPrice : Option ℚ
deriving DecidableEq, Repr

/-- Rejection reasons of the handler, in source order. -/
inductive AddError where
  | missingFields
  | noPlatforms
  | badTarget
  | capacity
  | duplicate
  | noPrices
deriving DecidableEq, Repr

/-- The target-price validation trigger
(`productData.targetPrice && (isNaN(...) || targetPrice <= 0)`; a zero
target is falsy and skips the check). -/
def badTargetReq : Option ℚ → Bool
  | some t => decide (t ≠ 0) && decide (t ≤ 0)
  | none => false

/-- The duplicate normalization
`(str || "").toLowerCase().replace(/[^a-z0-9]/g, "")`. -/
def normalizeQuery (s : String) : String :=
  ⟨(lowerChars s.data).filter
    (fun c => ('a' ≤ c ∧ c ≤ 'z') ∨ ('0' ≤ c ∧ c ≤ '9'))⟩

/-- The duplicate test (main.js 1345-1358): exact match or equality of the
normalized queries (the former implies the latter; both are transcribed). -/
def isDuplicateQuery (products : List Product) (q : String) : Bool :=
  products.any (fun p =>
    p.searchTerms = q ∨ normalizeQuery p.searchTerms = normalizeQuery q)

/-- The platform rows gathered from one scrape result
(`if (result && result.price)` — a zero price is falsy and skipped). -/
def platformRow (platform url : String) (r : Option TitlePrice) :
    List PlatformResult :=
  match r with
  | some tp => if tp.price ≠ 0 then [⟨platform, tp.title, url, tp.price⟩] else []
  | none => []

/-- Model of `current.price < best.price ? current : best` over the gathered rows
(`Array.prototype.reduce` without seed: first element, then fold). -/
def bestRow (r : PlatformResult) (rest : List PlatformResult) : PlatformResult :=
  rest.foldl (fun best cur => if cur.price < best.price then cur else best) r

/-- The `add-product` handler.  `now` is `Date.now()` (also used as the
id); `aOut` and `eOut` are the network outcomes of the Amazon and eBay
scrapes; the cache is threaded through both.  Returns the result, the
stored product list, and the cache. -/
def addProduct (products : List Product) (pd : ProductData) (now : ℤ)
    (aOut eOut : FetchOutcome) (cache : Cache) :
    (Product ⊕ AddError) × List Product × Cache :=
  if pd.searchTerms = "" ∨ pd.name = "" then
    (.inr .missingFields, products, cache)
  else
    match pd.platforms with
    | none => (.inr .noPlatforms, products, cache)
    | some (amazonSel, ebaySel) =>
      if ¬ amazonSel ∧ ¬ ebaySel then (.inr .noPlatforms, products, cache)
      else if badTargetReq pd.targetPrice then
        (.inr .badTarget, products, cache)
      else if maxProductsFree ≤ products.length then
        (.inr .capacity, products, cache)
      else if isDuplicateQuery products pd.searchTerms then
        (.inr .duplicate, products, cache)
      else
        let aStep :=
          if amazonSel then
            scrapeFirstResultPrice pd.searchTerms "amazon" now aOut cache
          else (none, cache)
        let aRows := platformRow "amazon"
          ("https://www.amazon.com/s?k=" ++ pd.searchTerms) aStep.1
        let eStep :=
          if ebaySel then
            scrapeFirstResultPrice pd.searchTerms "ebay" now eOut aStep.2
          else (none, aStep.2)
        let eRows := platformRow "ebay"
          ("https://www.ebay.com/sch/i.html?_nkw=" ++ pd.searchTerms) eStep.1
        match aRows ++ eRows with
        | [] => (.inr .noPrices, products, eStep.2)
        | r :: rest =>
          let best := bestRow r rest
          let targetStored := match pd.targetPrice with
            | some t => if t = 0 then none else some t
            | none => none
          let newProduct : Product :=
            ⟨now, pd.name, pd.searchTerms, amazonSel, ebaySel, targetStored,
              best.price, best.price, r :: rest, [best.price]⟩
          (.inl newProduct, products ++ [newProduct], eStep.2)

/-! ## The spec's selection rule, for comparison with the extraction code

The spec describes extraction as an ordered rule list where the first rule
whose candidate passes validation wins, a failing candidate merely moving
on to the next rule.  `firstValidatedPrice` renders that rule for the
search extraction and `firstRulePrice` for the global patterns of
`extractPriceFromHtml`. -/

/-- Validation of the Amazon branch: the 10-5000 plausibility band and the
query-sensitive minimum. -/
def amazonValid (searchTerms : String) (p : ℚ) : Bool :=
  decide (10 ≤ p ∧ p ≤ 5000) && decide (searchMinPrice searchTerms ≤ p)

/-- Validation of the eBay branch. -/
def ebayValid (searchTerms : String) (p : ℚ) : Bool :=
  decide (ebayMinPrice searchTerms ≤ p ∧ p ≤ 5000)

/-- Validation of the Walmart / Best Buy / Target branches. -/
def numValid (searchTerms : String) (p : ℚ) : Bool :=
  decide (searchMinPrice searchTerms ≤ p ∧ p ≤ 5000)

/-- The spec's rule for the search extraction: each selector contributes
its (first) candidate in listed order, and the first candidate passing
validation wins. -/
def firstValidatedPrice (sels : List (List Tok)) (valid : ℚ → Bool)
    (html : String) : Option ℚ :=
  (sels.filterMap (fun sel => (jsMatch sel html).map capsPrice)).find? valid

/-- The spec's rule applied to the global patterns of
`extractPriceFromHtml`: the first pattern with an in-band candidate wins
with its earliest in-band candidate. -/
def firstRulePrice (pats : List (List Tok)) (html : String) : Option ℚ :=
  (pats.filterMap (fun sel => (patternPrices sel html).head?)).head?

/-! ## Concrete scenario data used by the counterexamples and witnesses -/

/-- A search-result body whose first Amazon selector extracts 999.99. -/
def ceGoodHtml : String :=
  "<div data-component-type=\"s-search-result\"><span class=\"a-price-whole\">999</span><span class=\"a-price-fraction\">99</span></div>"

/-- An outcome stream whose first attempt times out and whose second
attempt returns a body that extracts successfully. -/
def ceOutcomes : ℕ → FetchOutcome :=
  fun n => if n = 0 then .timeout else .ok ceGoodHtml

/-- A body on which the first Amazon pattern of `extractPriceFromHtml`
finds 300 while the last pattern finds the smaller in-band 100. -/
def ceMixedHtml : String := "<span class=\"a-price-whole\">300</span>>$100<"

/-- A non-iPhone Amazon product URL. -/
def ceAmazonUrl : String := "https://www.amazon.com/dp/test"

/-- Three stored products filling the free tier, the first one with query
"iphone 13". -/
def storedIphone : Product :=
  ⟨1, "Phone", "iphone 13", true, false, none, 100, 100, [], [100]⟩

def storedTv : Product :=
  ⟨2, "Tv", "tv stand", true, false, none, 50, 50, [], [50]⟩

def storedMouse : Product :=
  ⟨3, "Mouse", "mouse", true, false, none, 20, 20, [], [20]⟩

/-- A well-formed request whose query differs from the stored
"iphone 13" only by letter case. -/
def dupRequest : ProductData :=
  ⟨"IPHONE 13", "My Phone", some (true, false), none⟩

/-! ## Claim C1 — the rate limiter violates its trailing-window bound

Eleven sequential back-to-back `admit` calls for one key, starting at a
simulated clock of 0: calls 1-5 are admitted at time 0; call 6 finds the
window full, sleeps the full 60 s, and is admitted at 60000 — but records
the stale pre-wait timestamp 0; that stale record then falls out of the
window immediately, so calls 7-11 are admitted at 60000 without waiting.
Six admissions (calls 6-11) therefore happen inside one trailing
60-second window — indeed at the single instant 60000. -/

/-- C1: the code violates the claimed invariant.  The trace of actual
admission times of eleven back-to-back calls contains six admissions in
the trailing window ending at 60000, exceeding the configured maximum of
five; `admit` records the pre-wait call time, not the actual admission
time. -/
theorem rateLimiter_admits_six_in_one_window :
    runAdmits 11 [] 0 =
      [0, 0, 0, 0, 0, 60000, 60000, 60000, 60000, 60000, 60000] ∧
    admissionsInWindow (runAdmits 11 [] 0) 60000 = 6 ∧
    rateMaxRequests < admissionsInWindow (runAdmits 11 [] 0) 60000 := by
  refine ⟨by decide, by decide, by decide⟩

/-! ## Bridges between the kernel-reducible rational operations and the
standard ones -/

theorem num_eq_mul_den (a : ℚ) : (a.num : ℚ) = a * a.den := by
  have ha : (a.den : ℚ) ≠ 0 := by exact_mod_cast a.den_nz
  exact (div_eq_iff ha).mp (Rat.num_div_den a)

theorem qsub_eq (a b : ℚ) : qsub a b = a - b := by
  have ha : (a.den : ℚ) ≠ 0 := by exact_mod_cast a.den_nz
  have hb : (b.den : ℚ) ≠ 0 := by exact_mod_cast b.den_nz
  rw [qsub, Rat.divInt_eq_div]
  push_cast
  rw [num_eq_mul_den a, num_eq_mul_den b, div_eq_iff (mul_ne_zero ha hb)]
  ring

theorem qmul_eq (a b : ℚ) : qmul a b = a * b := by
  have ha : (a.den : ℚ) ≠ 0 := by exact_mod_cast a.den_nz
  have hb : (b.den : ℚ) ≠ 0 := by exact_mod_cast b.den_nz
  rw [qmul, Rat.divInt_eq_div]
  push_cast
  rw [num_eq_mul_den a, num_eq_mul_den b, div_eq_iff (mul_ne_zero ha hb)]
  ring

theorem qdiv_eq (a b : ℚ) : qdiv a b = a / b := by
  have ha : (a.den : ℚ) ≠ 0 := by exact_mod_cast a.den_nz
  have hb : (b.den : ℚ) ≠ 0 := by exact_mod_cast b.den_nz
  by_cases hb0 : b = 0
  · subst hb0
    show Rat.divInt (a.num * (0 : ℚ).den) (a.den * (0 : ℚ).num) = a / 0
    rw [div_zero]
    show Rat.divInt (a.num * 1) (a.den * 0) = 0
    rw [mul_zero]
    exact Rat.divInt_zero _
  · have hbn : (b.num : ℚ) ≠ 0 := by
      exact_mod_cast Rat.num_ne_zero.mpr hb0
    rw [qdiv, Rat.divInt_eq_div]
    push_cast
    rw [div_eq_div_iff (mul_ne_zero ha hbn) hb0, num_eq_mul_den a,
      num_eq_mul_den b]
    ring

/-! ## Claim C2 — notification conditions after a check

The price-drop condition compares against the immediately preceding
history entry and is therefore edge-sensitive, but the target-price
condition has no crossing detection: it fires on every check whose price
is at or below the (nonzero) target. -/

/-- C2 counterexample: with target price 90 and price sequence
[100, 85, 85], the target-reached alert fires on the second check (the
crossing) and again on the third check while the price merely stays at or
below the target, contradicting edge-triggering. -/
theorem targetAlert_fires_below_target_repeatedly :
    (runChecks priceDropThreshold (some 90) [] [100, 85, 85]).1.map Prod.snd =
      [false, true, true] := by decide

/-- C2 as amended: the drop alert fires exactly on checks where the
previous history entry is a nonzero price above the current one by at
least the threshold percentage — so for [100, 90, 90, 85] at 5% it fires
on the two genuine drops and not on the repeated 90 — while the
target-reached alert is level-triggered: it fires on every check whose
price is at or below the nonzero target. -/
theorem notification_conditions_characterized :
    (∀ (thr : ℚ) (tgt : Option ℚ) (hist : List ℚ) (cur : ℚ),
        (recordCheck thr tgt hist cur).2.2 = true ↔
          ∃ t, tgt = some t ∧ t ≠ 0 ∧ cur ≤ t) ∧
    (∀ (thr : ℚ) (tgt : Option ℚ) (hist : List ℚ) (cur : ℚ),
        (recordCheck thr tgt hist cur).2.1 = true ↔
          ∃ p, hist.getLast? = some p ∧ p ≠ 0 ∧ cur < p ∧
            thr ≤ (p - cur) / p * 100) ∧
    (runChecks priceDropThreshold none [] [100, 90, 90, 85]).1.map Prod.fst =
      [false, true, false, true] := by
  refine ⟨fun thr tgt hist cur => ?_, fun thr tgt hist cur => ?_, by decide⟩
  · cases tgt with
    | none => simp [recordCheck]
    | some t => simp [recordCheck, and_assoc]
  · cases hgl : hist.getLast? with
    | none => simp [recordCheck, hgl]
    | some p =>
      simp [recordCheck, hgl, qsub_eq, qdiv_eq, qmul_eq, and_assoc]

/-- Witness for the amended C2 on concrete inputs: a check at 85 against
target 90 fires the target alert, and a 100 to 90 drop fires the drop
alert at the default 5% threshold. -/
theorem notification_conditions_characterized_witness :
    (recordCheck priceDropThreshold (some 90) [100] 85).2.2 = true ∧
    (recordCheck priceDropThreshold none [100] 90).2.1 = true :=
  ⟨(notification_conditions_characterized.1 priceDropThreshold (some 90)
      [100] 85).mpr ⟨90, rfl, by norm_num, by norm_num⟩,
   (notification_conditions_characterized.2.1 priceDropThreshold none
      [100] 90).mpr
     ⟨100, rfl, by norm_num, by norm_num, by norm_num [priceDropThreshold]⟩⟩

/-! ## Claim C3 — the acquisition is claimed to never resolve null -/

/-- C3 counterexample: for a source key outside the five supported
platforms, `scrapeFirstResultPrice` resolves `null` (main.js 386-390),
whatever the network would have answered. -/
theorem scrape_resolves_null_on_unknown_platform :
    (scrapeFirstResultPrice "iphone 13" "temu" 0 .timeout emptyCache).1 =
      none ∧
    (scrapeFirstResultPrice "iphone 13" "temu" 0 (.ok ceGoodHtml)
        emptyCache).1 = none :=
  ⟨by decide, by decide⟩

/-- Every fetch path of the search scraper resolves a value: the accepted
extraction or the fallback object. -/
theorem scrapeFetch_isSome (searchTerms platform : String) (now : ℤ)
    (outcome : FetchOutcome) (cache : Cache) :
    (scrapeFetch searchTerms platform now outcome cache).1.isSome = true := by
  unfold scrapeFetch
  cases outcome
  case ok html =>
    cases hE : extractFirstResultWithTitle html platform searchTerms with
    | obj tp =>
      simp only [hE]
      split <;> simp
    | num p => simp [hE]
    | noRes => simp [hE]
  all_goals simp

/-- C3 as amended: for each of the five supported platforms the
acquisition always resolves an object — from the cache, the accepted
extraction, or the fallback generator — regardless of HTTP status,
timeout, transport error, or extraction failure; for any other source key
it resolves null. -/
theorem scrape_always_resolves_on_supported (searchTerms platform : String)
    (now : ℤ) (outcome : FetchOutcome) (cache : Cache)
    (h : supportedPlatform platform = true) :
    (scrapeFirstResultPrice searchTerms platform now outcome cache).1.isSome =
      true := by
  unfold scrapeFirstResultPrice
  simp only [h, ite_true]
  cases hc : cache (searchCacheKey platform searchTerms) with
  | none => exact scrapeFetch_isSome ..
  | some e =>
    simp only [hc]
    split
    · simp
    · exact scrapeFetch_isSome ..

/-- Witness for the amended C3: a timed-out Amazon acquisition still
resolves a value. -/
theorem scrape_always_resolves_witness :
    supportedPlatform "amazon" = true ∧
    (scrapeFirstResultPrice "iphone 13" "amazon" 0 .timeout
        emptyCache).1.isSome = true :=
  ⟨by decide,
   scrape_always_resolves_on_supported "iphone 13" "amazon" 0 .timeout
     emptyCache (by decide)⟩

/-! ## Claim C5 — the fallback generator is deterministic -/

set_option maxRecDepth 8000 in
/-- C5: `getSearchFallbackPrice` is a pure function of the
`(query, source)` pair: its result is independent of the ambient process
state (clock, RNG), and two invocations on the same pair return objects
equal in both components, illustrated on a concrete pair under two
different process states. -/
theorem getSearchFallbackPrice_deterministic :
    (∀ query platform : String, ∀ s₁ s₂ : ProcState,
        getSearchFallbackPriceSt query platform s₁ =
          getSearchFallbackPriceSt query platform s₂) ∧
    getSearchFallbackPriceSt "iphone 13" "ebay" ⟨123456789, 42⟩ =
      ⟨some "iphone 13 - Ebay Result", 313⟩ ∧
    getSearchFallbackPriceSt "iphone 13" "ebay" ⟨987654321, 7⟩ =
      ⟨some "iphone 13 - Ebay Result", 313⟩ :=
  ⟨fun _ _ _ _ => rfl, by decide, by decide⟩

/-! ## Claim C9 — failures are never cached

The only cache write of either scraper sits in the branch that accepted a
freshly extracted result with a positive price; every other path — cache
hit, HTTP failure, timeout, extraction miss, fallback — leaves the cache
untouched.  The statements below say: after any acquisition, each key is
either unchanged or holds the accepted positive-price extraction of this
very acquisition. -/

/-- Cache behaviour of the search scraper's fetch path. -/
theorem scrapeFetch_cache (searchTerms platform : String) (now : ℤ)
    (outcome : FetchOutcome) (cache : Cache) (k : String) :
    (scrapeFetch searchTerms platform now outcome cache).2 k = cache k ∨
    ∃ html tp, outcome = .ok html ∧
      extractFirstResultWithTitle html platform searchTerms = .obj tp ∧
      0 < tp.price ∧ k = searchCacheKey platform searchTerms ∧
      (scrapeFetch searchTerms platform now outcome cache).2 k =
        some ⟨tp.title, tp.price, now⟩ := by
  unfold scrapeFetch
  cases outcome
  case ok html =>
    cases hE : extractFirstResultWithTitle html platform searchTerms with
    | obj tp =>
      simp only [hE]
      by_cases h0 : 0 < tp.price
      · rw [if_pos h0]
        by_cases hk : k = searchCacheKey platform searchTerms
        · exact Or.inr ⟨html, tp, rfl, hE, h0, hk, by simp [cacheSet, hk]⟩
        · exact Or.inl (by simp [cacheSet, hk])
      · rw [if_neg h0]
        exact Or.inl rfl
    | num p => simp [hE]
    | noRes => simp [hE]
  all_goals exact Or.inl rfl

/-- Cache behaviour of the URL scraper's fetch path. -/
theorem scrapePriceFetch_cache (url : String) (now : ℤ)
    (outcome : FetchOutcome) (cache : Cache) (k : String) :
    (scrapePriceFetch url now outcome cache).2 k = cache k ∨
    ∃ html p, outcome = .ok html ∧ extractPriceFromHtml html url = some p ∧
      0 < p ∧ k = url ∧
      (scrapePriceFetch url now outcome cache).2 k = some ⟨none, p, now⟩ := by
  unfold scrapePriceFetch
  cases outcome
  case ok html =>
    cases hE : extractPriceFromHtml html url with
    | some p =>
      simp only [hE]
      by_cases h0 : p ≠ 0 ∧ 0 < p
      · rw [if_pos h0]
        by_cases hk : k = url
        · exact Or.inr ⟨html, p, rfl, hE, h0.2, hk, by simp [cacheSet, hk]⟩
        · exact Or.inl (by simp [cacheSet, hk])
      · rw [if_neg h0]
        exact Or.inl rfl
    | none => simp [hE]
  all_goals exact Or.inl rfl

/-- C9: failures are never cached.  For both scrapers and every key, an
acquisition either leaves that cache key unchanged or — only when the
fetched body extracted a result with a positive price — overwrites the
acquisition's own key with exactly that extracted result; in particular no
fallback value and no failure is ever stored. -/
theorem cache_stores_only_positive_extractions :
    (∀ (searchTerms platform : String) (now : ℤ) (outcome : FetchOutcome)
        (cache : Cache) (k : String),
        (scrapeFirstResultPrice searchTerms platform now outcome cache).2 k =
          cache k ∨
        ∃ html tp, outcome = .ok html ∧
          extractFirstResultWithTitle html platform searchTerms = .obj tp ∧
          0 < tp.price ∧ k = searchCacheKey platform searchTerms ∧
          (scrapeFirstResultPrice searchTerms platform now outcome
              cache).2 k = some ⟨tp.title, tp.price, now⟩) ∧
    (∀ (url : String) (urlValid : Bool) (now : ℤ) (outcome : FetchOutcome)
        (cache : Cache) (k : String),
        (scrapePrice url urlValid now outcome cache).2 k = cache k ∨
        ∃ html p, outcome = .ok html ∧
          extractPriceFromHtml html url = some p ∧ 0 < p ∧ k = url ∧
          (scrapePrice url urlValid now outcome cache).2 k =
            some ⟨none, p, now⟩) := by
  constructor
  · intro searchTerms platform now outcome cache k
    unfold scrapeFirstResultPrice
    by_cases hs : supportedPlatform platform = true
    · simp only [hs, ite_true]
      cases hc : cache (searchCacheKey platform searchTerms) with
      | none => exact scrapeFetch_cache ..
      | some e =>
        simp only
        split
        · exact Or.inl rfl
        · exact scrapeFetch_cache ..
    · rw [Bool.not_eq_true] at hs
      simp only [hs]
      exact Or.inl rfl
  · intro url urlValid now outcome cache k
    unfold scrapePrice
    cases urlValid with
    | false => exact Or.inl rfl
    | true =>
      simp only [ite_true]
      cases hc : cache url with
      | none => exact scrapePriceFetch_cache ..
      | some e =>
        simp only
        split
        · exact Or.inl rfl
        · exact scrapePriceFetch_cache ..

/-! ## Claim C10 — the walmart/bestbuy/target branches return a bare
number that the caller never accepts

On these platforms `extractFirstResultWithTitle` returns a plain number;
the caller requires `extractedResult.price > 0`, which is never true of a
number (its `price` field is `undefined`), so the live extraction is
always rejected: on a cache miss the scraper resolves the fallback
generator's value, and it never writes the cache. -/

/-- The numeric selector loops never produce a title/price object. -/
theorem numLoop_not_obj (html searchTerms : String) :
    ∀ (sels : List (List Tok)) (tp : TitlePrice),
      numLoop html searchTerms sels ≠ .obj tp := by
  intro sels
  induction sels with
  | nil => intro tp h; exact ExtractOut.noConfusion h
  | cons sel rest ih =>
    intro tp
    unfold numLoop
    cases jsMatch sel html with
    | none => exact ih tp
    | some m =>
      simp only
      split
      · intro h; exact ExtractOut.noConfusion h
      · exact ih tp

/-- C10: on walmart, bestbuy and target the extraction never yields an
object, so the acceptance test fails on every body; consequently the
scraper never writes the cache on these platforms, and whenever the cache
has no fresh entry it resolves exactly the fallback generator's value. -/
theorem numeric_platforms_always_fall_back (platform : String)
    (hp : platform = "walmart" ∨ platform = "bestbuy" ∨ platform = "target") :
    (∀ (html searchTerms : String) (tp : TitlePrice),
        extractFirstResultWithTitle html platform searchTerms ≠ .obj tp) ∧
    (∀ (searchTerms : String) (now : ℤ) (outcome : FetchOutcome)
        (cache : Cache) (k : String),
        (scrapeFirstResultPrice searchTerms platform now outcome cache).2 k =
          cache k) ∧
    (∀ (searchTerms : String) (now : ℤ) (outcome : FetchOutcome)
        (cache : Cache),
        (∀ e, cache (searchCacheKey platform searchTerms) = some e →
            cacheTTLMs ≤ now - e.timestamp) →
        (scrapeFirstResultPrice searchTerms platform now outcome cache).1 =
          some (getSearchFallbackPrice searchTerms platform)) := by
  have hext : ∀ (html searchTerms : String) (tp : TitlePrice),
      extractFirstResultWithTitle html platform searchTerms ≠ .obj tp := by
    intro html searchTerms tp
    rcases hp with h | h | h <;> subst h <;>
      simp only [extractFirstResultWithTitle] <;>
      norm_num <;> exact numLoop_not_obj html searchTerms _ tp
  have hfetch : ∀ (searchTerms : String) (now : ℤ) (outcome : FetchOutcome)
      (cache : Cache),
      scrapeFetch searchTerms platform now outcome cache =
        (some (getSearchFallbackPrice searchTerms platform), cache) := by
    intro searchTerms now outcome cache
    unfold scrapeFetch
    cases outcome
    case ok html =>
      cases hE : extractFirstResultWithTitle html platform searchTerms with
      | obj tp => exact absurd hE (hext html searchTerms tp)
      | num p => simp [hE]
      | noRes => simp [hE]
    all_goals rfl
  have hsupp : supportedPlatform platform = true := by
    rcases hp with h | h | h <;> subst h <;> decide
  refine ⟨hext, fun searchTerms now outcome cache k => ?_,
    fun searchTerms now outcome cache hmiss => ?_⟩
  · unfold scrapeFirstResultPrice
    simp only [hsupp, ite_true]
    cases hc : cache (searchCacheKey platform searchTerms) with
    | none => rw [hfetch]
    | some e =>
      simp only
      split
      · rfl
      · rw [hfetch]
  · unfold scrapeFirstResultPrice
    simp only [hsupp, ite_true]
    cases hc : cache (searchCacheKey platform searchTerms) with
    | none => rw [hfetch]
    | some e =>
      simp only
      rw [if_neg (by have := hmiss e hc; omega), hfetch]

/-- Witness for C10: a timed-out Walmart acquisition against an empty
cache resolves the fallback value and changes no cache key. -/
theorem numeric_platforms_always_fall_back_witness :
    (scrapeFirstResultPrice "gadget" "walmart" 0 .timeout emptyCache).1 =
      some (getSearchFallbackPrice "gadget" "walmart") ∧
    (scrapeFirstResultPrice "gadget" "walmart" 0 .timeout emptyCache).2
        "walmart-gadget" = emptyCache "walmart-gadget" :=
  ⟨(numeric_platforms_always_fall_back "walmart" (Or.inl rfl)).2.2 "gadget" 0
      .timeout emptyCache (fun e he => by simp [emptyCache] at he),
   (numeric_platforms_always_fall_back "walmart" (Or.inl rfl)).2.1 "gadget" 0
      .timeout emptyCache "walmart-gadget"⟩

/-! ## Claim C4 — the acquisition is claimed to wrap the pipeline in a
retry policy

`retryWithBackoff` exists in the source with exactly the claimed policy,
but nothing calls it: `scrapeFirstResultPrice` performs a single fetch and
resolves the fallback the moment that one attempt fails.  `acquireSpec` is
the spec-side acquisition for comparison. -/

set_option maxRecDepth 4000 in
/-- C4 counterexample: with an outcome stream whose first attempt times out
and whose second attempt would extract 999.99, the code resolves the
fallback value after the single attempt, while the claimed retry-wrapped
acquisition resolves the extracted result on its second attempt; the two
values differ. -/
theorem acquisition_not_retried :
    (scrapeFirstResultPrice "gadget" "amazon" 0 (ceOutcomes 0) emptyCache).1 =
      some (getSearchFallbackPrice "gadget" "amazon") ∧
    (acquireSpec "gadget" "amazon" 0 ceOutcomes emptyCache).1 =
      some ⟨some "gadget - Amazon Result", Rat.divInt 99999 100⟩ ∧
    decide (getSearchFallbackPrice "gadget" "amazon" =
      ⟨some "gadget - Amazon Result", Rat.divInt 99999 100⟩) = false :=
  ⟨by decide, by decide, by decide⟩

/-- C4 as amended: the helper `retryWithBackoff` does implement the claimed
policy — up to 3 attempts, an attempt succeeding only on a non-null
result, backoff delays of 1 s then 2 s — but the acquisition never invokes
it: on a cache miss it consults exactly one network outcome and resolves
the fallback immediately when that single pipeline attempt fails. -/
theorem retry_policy_defined_but_unused :
    (∀ (α : Type) (fn : ℕ → AttemptRes α) (v : α),
        fn 1 = .ret (some v) →
        retryWithBackoff fn 3 1000 = ⟨.ok (some v), [], 1⟩) ∧
    (∀ (α : Type) (fn : ℕ → AttemptRes α) (v : α),
        fn 1 = .ret none → fn 2 = .ret (some v) →
        retryWithBackoff fn 3 1000 = ⟨.ok (some v), [1000], 2⟩) ∧
    (∀ (α : Type) (fn : ℕ → AttemptRes α) (v : α),
        fn 1 = .ret none → fn 2 = .ret none → fn 3 = .ret (some v) →
        retryWithBackoff fn 3 1000 = ⟨.ok (some v), [1000, 2000], 3⟩) ∧
    (∀ (α : Type) (fn : ℕ → AttemptRes α),
        fn 1 = .ret none → fn 2 = .ret none → fn 3 = .ret none →
        retryWithBackoff fn 3 1000 = ⟨.ok none, [1000, 2000], 3⟩) ∧
    (∀ (searchTerms platform : String) (now : ℤ) (outcome : FetchOutcome)
        (cache : Cache),
        supportedPlatform platform = true →
        (∀ e, cache (searchCacheKey platform searchTerms) = some e →
            cacheTTLMs ≤ now - e.timestamp) →
        (scrapeFirstResultPrice searchTerms platform now outcome cache).1 =
          some ((pipelineResult searchTerms platform outcome).getD
            (getSearchFallbackPrice searchTerms platform))) := by
  have hloop : ∀ (α : Type) (fn : ℕ → AttemptRes α),
      retryWithBackoff fn 3 1000 =
        retryLoop fn 3 1000 [1, 2, 3] [] := by
    intro α fn; rfl
  refine ⟨?_, ?_, ?_, ?_, ?_⟩
  · intro α fn v h1
    rw [hloop]
    simp [retryLoop, h1]
  · intro α fn v h1 h2
    rw [hloop]
    simp [retryLoop, h1, h2]
  · intro α fn v h1 h2 h3
    rw [hloop]
    simp [retryLoop, h1, h2, h3]
  · intro α fn h1 h2 h3
    rw [hloop]
    simp [retryLoop, h1, h2, h3]
  · intro searchTerms platform now outcome cache hsupp hmiss
    have hfetch : (scrapeFetch searchTerms platform now outcome cache).1 =
        some ((pipelineResult searchTerms platform outcome).getD
          (getSearchFallbackPrice searchTerms platform)) := by
      unfold scrapeFetch pipelineResult
      cases outcome
      case ok html =>
        cases hE : extractFirstResultWithTitle html platform searchTerms with
        | obj tp =>
          simp only [hE]
          split <;> simp
        | num p => simp [hE]
        | noRes => simp [hE]
      all_goals rfl
    unfold scrapeFirstResultPrice
    simp only [hsupp, ite_true]
    cases hc : cache (searchCacheKey platform searchTerms) with
    | none => exact hfetch
    | some e =>
      simp only
      rw [if_neg (by have := hmiss e hc; omega)]
      exact hfetch

/-- Witness for the amended C4: the exhaustion case of the retry policy on
a concrete always-null function, and a concrete single-attempt acquisition
that resolves the fallback for a timed-out outcome. -/
theorem retry_policy_defined_but_unused_witness :
    retryWithBackoff (fun _ => AttemptRes.ret (none : Option ℕ)) 3 1000 =
      ⟨.ok none, [1000, 2000], 3⟩ ∧
    (scrapeFirstResultPrice "gadget" "amazon" 0 .timeout emptyCache).1 =
      some ((pipelineResult "gadget" "amazon" .timeout).getD
        (getSearchFallbackPrice "gadget" "amazon")) :=
  ⟨retry_policy_defined_but_unused.2.2.2.1 ℕ (fun _ => .ret none)
      rfl rfl rfl,
   retry_policy_defined_but_unused.2.2.2.2 "gadget" "amazon" 0 .timeout
      emptyCache (by decide) (fun e he => by simp [emptyCache] at he)⟩

/-! ## Claim C8 — duplicate queries are rejected without mutating the store

The handler checks for a duplicate only after the field, platform, target
and free-tier capacity validations, so a duplicate request can be rejected
with a different error; the store is unchanged on every rejection. -/

set_option maxRecDepth 2000 in
/-- C8 counterexample: with the free tier full (3 stored products, one of
them with query "iphone 13") a fully well-formed request whose query
differs from the stored one only by letter case is rejected with the
capacity error, not the duplicate-query error (the store is still
unchanged). -/
theorem duplicate_request_rejected_as_capacity :
    normalizeQuery dupRequest.searchTerms =
      normalizeQuery storedIphone.searchTerms ∧
    isDuplicateQuery [storedIphone, storedTv, storedMouse]
      dupRequest.searchTerms = true ∧
    (addProduct [storedIphone, storedTv, storedMouse] dupRequest 99 .timeout
        .timeout emptyCache).1 = .inr .capacity ∧
    decide ((AddError.capacity : AddError) = .duplicate) = false ∧
    (addProduct [storedIphone, storedTv, storedMouse] dupRequest 99 .timeout
        .timeout emptyCache).2.1 = [storedIphone, storedTv, storedMouse] :=
  ⟨by decide, by decide, by decide, by decide, by decide⟩

/-- The store after `add-product` is either untouched (every rejection) or
the old store with exactly the new product appended (success). -/
theorem addProduct_store_shape (products : List Product) (pd : ProductData)
    (now : ℤ) (aOut eOut : FetchOutcome) (cache : Cache) :
    (addProduct products pd now aOut eOut cache).2.1 = products ∨
    ∃ p, (addProduct products pd now aOut eOut cache).1 = .inl p ∧
      (addProduct products pd now aOut eOut cache).2.1 = products ++ [p] := by
  unfold addProduct
  split
  · exact Or.inl rfl
  · split
    · exact Or.inl rfl
    · split
      · exact Or.inl rfl
      · split
        · exact Or.inl rfl
        · split
          · exact Or.inl rfl
          · split
            · exact Or.inl rfl
            · simp only
              split
              · exact Or.inl rfl
              · exact Or.inr ⟨_, rfl, rfl⟩

/-- C8 as amended: when the request passes the earlier validations (both
fields present, at least one platform selected, target price valid, store
below the free-tier capacity of 3) a query that normalizes to an already
tracked one is rejected with the duplicate-query error and the store is
unchanged (see `addProduct_store_shape` for the store being unchanged on
every rejection path). -/
theorem addProduct_duplicate_rejected (products : List Product)
    (pd : ProductData) (now : ℤ) (aOut eOut : FetchOutcome) (cache : Cache) :
    (pd.searchTerms = "" ∨ pd.name = "" → False) →
    (∃ a e, pd.platforms = some (a, e) ∧ (a = true ∨ e = true)) →
    badTargetReq pd.targetPrice = false →
    products.length < maxProductsFree →
    isDuplicateQuery products pd.searchTerms = true →
    (addProduct products pd now aOut eOut cache).1 = .inr .duplicate ∧
    (addProduct products pd now aOut eOut cache).2.1 = products := by
  intro hfields hplat htarget hcap hdup
  obtain ⟨a, e, hpe, hae⟩ := hplat
  unfold addProduct
  rw [if_neg hfields, hpe]
  simp only
  rw [if_neg (by rcases hae with h | h <;> subst h <;> simp), htarget]
  simp only [Bool.false_eq_true, if_false]
  rw [if_neg (by omega), if_pos hdup]
  exact ⟨rfl, rfl⟩

set_option maxRecDepth 2000 in
/-- Witness for the amended C8: below capacity, the same case-variant
duplicate request is rejected with the duplicate error and the store keeps
exactly its one product. -/
theorem addProduct_duplicate_rejected_witness :
    (addProduct [storedIphone] dupRequest 99 .timeout .timeout
        emptyCache).1 = .inr .duplicate ∧
    (addProduct [storedIphone] dupRequest 99 .timeout .timeout
        emptyCache).2.1 = [storedIphone] :=
  addProduct_duplicate_rejected [storedIphone] dupRequest 99 .timeout
    .timeout emptyCache (by decide) ⟨true, false, rfl, Or.inl rfl⟩
    (by decide) (by decide) (by decide)

/-! ## Claim C7 — history is append-only, capped at 100, FIFO-evicted -/

/-- Folding one more price into the history commutes with `foldl`. -/
theorem histAfter_append (ps : List ℚ) (p : ℚ) :
    histAfter (ps ++ [p]) = pushTrim (histAfter ps) p := by
  simp [histAfter]

/-- The retained history is always the suffix of the full price sequence
past the first `length - cap` entries. -/
theorem histAfter_eq_drop (ps : List ℚ) :
    histAfter ps = ps.drop (ps.length - historyCap) := by
  induction ps using List.reverseRecOn with
  | nil => simp [histAfter]
  | append_singleton ps p ih =>
    rw [histAfter_append, ih]
    have hc : historyCap = 100 := rfl
    have hdlen : (ps.drop (ps.length - historyCap)).length =
        ps.length - (ps.length - historyCap) := List.length_drop ..
    unfold pushTrim
    by_cases hlen : ps.length < historyCap
    · have h0 : ps.length - historyCap = 0 := by omega
      have h0' : (ps ++ [p]).length - historyCap = 0 := by
        rw [List.length_append]; simp; omega
      rw [h0, h0', List.drop_zero, List.drop_zero]
      rw [if_neg (by rw [List.length_append]; simp; omega)]
    · have h100 : historyCap ≤ ps.length := by omega
      have hlen1 : (ps.drop (ps.length - historyCap) ++ [p]).length =
          historyCap + 1 := by rw [List.length_append]; simp; omega
      rw [if_pos (by rw [hlen1]; omega), hlen1]
      have h1 : historyCap + 1 - historyCap = 1 := by omega
      have h2 : (ps.drop (ps.length - historyCap) ++ [p]).drop 1 =
          (ps.drop (ps.length - historyCap)).drop 1 ++ [p] :=
        List.drop_append_of_le_length (by omega)
      have h3 : (ps ++ [p]).length - historyCap = 1 + (ps.length - historyCap) := by
        rw [List.length_append]; simp; omega
      have h4 : (ps ++ [p]).drop (1 + (ps.length - historyCap)) =
          ps.drop (1 + (ps.length - historyCap)) ++ [p] :=
        List.drop_append_of_le_length (by omega)
      have h5 : ps.length - historyCap + 1 = 1 + (ps.length - historyCap) := by
        omega
      rw [h1, h2, List.drop_drop, h3, h4, h5]

/-- C7: the history is append-only with FIFO eviction: after recording the
price sequence `ps` the retained history is exactly the chronological
suffix of the last `min ps.length 100` entries, and the per-check update is
precisely the append-then-trim step of `checkAllPrices`. -/
theorem priceHistory_capped_fifo :
    (∀ thr tgt hist cur,
        (recordCheck thr tgt hist cur).1 = pushTrim hist cur) ∧
    (∀ ps : List ℚ,
        histAfter ps = ps.drop (ps.length - historyCap) ∧
        (histAfter ps).length = min ps.length historyCap) := by
  refine ⟨fun _ _ _ _ => rfl, fun ps => ⟨histAfter_eq_drop ps, ?_⟩⟩
  rw [histAfter_eq_drop ps, List.length_drop]
  omega

/-! ## Claim C6 — ordered rules, first validated candidate wins

The search extraction (`extractFirstResultWithTitle`) does follow the
spec's selection rule on every platform: selectors in listed order, the
first validated candidate winning, an invalid candidate continuing to the
next selector.  The URL extraction (`extractPriceFromHtml`) does not: it
pools the in-band candidates of all patterns and (for non-iPhone URLs)
returns the minimum, which can come from a later, coarser pattern. -/

/-- The Amazon selector loop implements first-validated-candidate-wins. -/
theorem amazonLoop_eq (html searchTerms : String) (sels : List (List Tok)) :
    amazonLoop html searchTerms sels =
      (match firstValidatedPrice sels (amazonValid searchTerms) html with
       | some p => .obj ⟨some (amazonTitle html searchTerms), p⟩
       | none => .noRes) := by
  induction sels with
  | nil => rfl
  | cons sel rest ih =>
    unfold amazonLoop firstValidatedPrice
    cases hm : jsMatch sel html with
    | none =>
      simp only [List.filterMap_cons, hm, Option.map_none']
      exact ih
    | some m =>
      simp only [List.filterMap_cons, hm, Option.map_some', List.find?_cons]
      by_cases h1 : 10 ≤ capsPrice m ∧ capsPrice m ≤ 5000
      · by_cases h2 : searchMinPrice searchTerms ≤ capsPrice m
        · simp [amazonValid, h1, h2]
        · simp only [if_pos h1, if_neg h2]
          have hv : amazonValid searchTerms (capsPrice m) = false := by
            simp [amazonValid, h1, h2]
          simp only [hv]
          exact ih
      · simp only [if_neg h1]
        have hv : amazonValid searchTerms (capsPrice m) = false := by
          simp [amazonValid, h1]
        simp only [hv]
        exact ih

/-- The eBay selector loop implements first-validated-candidate-wins. -/
theorem ebayLoop_eq (html searchTerms : String) (sels : List (List Tok)) :
    ebayLoop html searchTerms sels =
      (match firstValidatedPrice sels (ebayValid searchTerms) html with
       | some p => .obj ⟨some (ebayTitle html searchTerms), p⟩
       | none => .noRes) := by
  induction sels with
  | nil => rfl
  | cons sel rest ih =>
    unfold ebayLoop firstValidatedPrice
    cases hm : jsMatch sel html with
    | none =>
      simp only [List.filterMap_cons, hm, Option.map_none']
      exact ih
    | some m =>
      simp only [List.filterMap_cons, hm, Option.map_some', List.find?_cons]
      by_cases h1 : ebayMinPrice searchTerms ≤ capsPrice m ∧ capsPrice m ≤ 5000
      · simp [ebayValid, h1]
      · simp only [if_neg h1]
        have hv : ebayValid searchTerms (capsPrice m) = false := by
          simp [ebayValid, h1]
        simp only [hv]
        exact ih

/-- The numeric selector loops implement first-validated-candidate-wins. -/
theorem numLoop_eq (html searchTerms : String) (sels : List (List Tok)) :
    numLoop html searchTerms sels =
      (match firstValidatedPrice sels (numValid searchTerms) html with
       | some p => .num p
       | none => .noRes) := by
  induction sels with
  | nil => rfl
  | cons sel rest ih =>
    unfold numLoop firstValidatedPrice
    cases hm : jsMatch sel html with
    | none =>
      simp only [List.filterMap_cons, hm, Option.map_none']
      exact ih
    | some m =>
      simp only [List.filterMap_cons, hm, Option.map_some', List.find?_cons]
      by_cases h1 : searchMinPrice searchTerms ≤ capsPrice m ∧ capsPrice m ≤ 5000
      · simp [numValid, h1]
      · simp only [if_neg h1]
        have hv : numValid searchTerms (capsPrice m) = false := by
          simp [numValid, h1]
        simp only [hv]
        exact ih

/-- Membership in the dedup pass. -/
theorem jsUniqAux_mem (x : ℚ) :
    ∀ (ls : List ℚ) (seen : List ℚ),
      x ∈ jsUniqAux seen ls ↔ x ∈ ls ∧ x ∉ seen := by
  intro ls
  induction ls with
  | nil => intro seen; simp [jsUniqAux]
  | cons p t ih =>
    intro seen
    unfold jsUniqAux
    by_cases hp : seen.contains p
    · rw [if_pos hp]
      rw [ih seen]
      have hpmem : p ∈ seen := by
        simpa using hp
      constructor
      · rintro ⟨hxt, hxs⟩
        exact ⟨List.mem_cons_of_mem _ hxt, hxs⟩
      · rintro ⟨hxpt, hxs⟩
        rcases List.mem_cons.mp hxpt with hxp | hxt
        · exact absurd (hxp ▸ hpmem) hxs
        · exact ⟨hxt, hxs⟩
    · rw [if_neg hp]
      have hpnot : p ∉ seen := by
        simpa using hp
      constructor
      · intro hx
        rcases List.mem_cons.mp hx with hxp | hxtail
        · exact ⟨hxp ▸ List.mem_cons_self .., hxp ▸ hpnot⟩
        · have := (ih (p :: seen)).mp hxtail
          refine ⟨List.mem_cons_of_mem _ this.1, fun hxs => this.2 ?_⟩
          exact List.mem_cons_of_mem _ hxs
      · rintro ⟨hxpt, hxs⟩
        rcases List.mem_cons.mp hxpt with hxp | hxt
        · exact hxp ▸ List.mem_cons_self ..
        · by_cases hxp : x = p
          · exact hxp ▸ List.mem_cons_self ..
          · refine List.mem_cons_of_mem _ ((ih (p :: seen)).mpr ⟨hxt, ?_⟩)
            intro hmem
            rcases List.mem_cons.mp hmem with h | h
            · exact hxp h
            · exact hxs h

/-- Dedup preserves membership. -/
theorem jsUniq_mem (x : ℚ) (l : List ℚ) : x ∈ jsUniq l ↔ x ∈ l := by
  rw [jsUniq, jsUniqAux_mem]
  simp

/-- For a non-iPhone URL, `extractPriceFromHtml` returns exactly the
minimum of all collected in-band candidates. -/
theorem extractPriceFromHtml_eq_min (html url : String)
    (h1 : strIncludes url "iphone" = false)
    (h2 : strIncludes url "iPhone" = false) :
    extractPriceFromHtml html url = (urlPrices html url).min? := by
  unfold extractPriceFromHtml
  simp only [h1, h2, Bool.false_eq_true, false_or, if_false]
  have hmem : ∀ x : ℚ,
      x ∈ (jsUniq (urlPrices html url)).insertionSort (· ≤ ·) ↔
        x ∈ urlPrices html url := by
    intro x
    rw [(List.perm_insertionSort (· ≤ ·) (jsUniq (urlPrices html url))).mem_iff]
    exact jsUniq_mem x _
  have hsorted : List.Sorted (· ≤ ·)
      ((jsUniq (urlPrices html url)).insertionSort (· ≤ ·)) :=
    List.sorted_insertionSort (· ≤ ·) _
  cases hs : (jsUniq (urlPrices html url)).insertionSort (· ≤ ·) with
  | nil =>
    have hempty : urlPrices html url = [] := by
      apply List.eq_nil_iff_forall_not_mem.mpr
      intro x hx
      have := (hmem x).mpr hx
      rw [hs] at this
      exact List.not_mem_nil x this
    simp [hs, hempty]
  | cons h t =>
    rw [hs] at hmem hsorted
    simp only [hs, List.isEmpty_cons, List.headD_cons]
    have hhead_le : ∀ b ∈ urlPrices html url, h ≤ b := by
      intro b hb
      rcases List.mem_cons.mp ((hmem b).mpr hb) with hbh | hbt
      · exact le_of_eq hbh.symm
      · exact (List.sorted_cons.mp hsorted).1 b hbt
    have hhead_mem : h ∈ urlPrices html url :=
      (hmem h).mp (List.mem_cons_self ..)
    haveI hAnti : Std.Antisymm (fun x1 x2 : ℚ => x1 ≤ x2) :=
      ⟨fun hab hba => le_antisymm hab hba⟩
    have := @List.min?_eq_some_iff ℚ h _ _ hAnti
      (fun a => le_refl a) (fun a b => min_choice a b)
      (fun a b c => le_min_iff) (urlPrices html url)
    exact (this.mpr ⟨hhead_mem, hhead_le⟩).symm

set_option maxRecDepth 4000 in
/-- C6 counterexample: on a body containing an in-container price of 300
and a bare generic-pattern price of 100, the URL extraction returns 100 —
the pooled minimum — although the first (most specific) rule's candidate,
300, passes validation; rule order does not determine the result. -/
theorem extractPriceFromHtml_ignores_rule_order :
    extractPriceFromHtml ceMixedHtml ceAmazonUrl = some 100 ∧
    firstRulePrice amazonPatterns ceMixedHtml = some 300 ∧
    strIncludes ceAmazonUrl "amazon." = true ∧
    decide ((100 : ℚ) = 300) = false :=
  ⟨by decide, by decide, by decide, by decide⟩

/-- C6 as amended: the search extraction follows the spec's rule on every
platform — selectors in listed order, the first candidate passing
validation wins, a failing candidate continues to the next selector — but
the URL extraction `extractPriceFromHtml` instead pools every pattern's
in-band candidates and (for non-iPhone URLs) returns their minimum, not
the first rule's validated candidate. -/
theorem extraction_first_validated_rule_wins :
    (∀ html searchTerms : String,
        extractFirstResultWithTitle html "amazon" searchTerms =
          (match firstValidatedPrice amazonSelectors
              (amazonValid searchTerms) html with
           | some p => .obj ⟨some (amazonTitle html searchTerms), p⟩
           | none => .noRes)) ∧
    (∀ html searchTerms : String,
        extractFirstResultWithTitle html "ebay" searchTerms =
          (match firstValidatedPrice ebaySelectors
              (ebayValid searchTerms) html with
           | some p => .obj ⟨some (ebayTitle html searchTerms), p⟩
           | none => .noRes)) ∧
    (∀ html searchTerms : String,
        extractFirstResultWithTitle html "walmart" searchTerms =
          (match firstValidatedPrice walmartSelectors
              (numValid searchTerms) html with
           | some p => .num p
           | none => .noRes)) ∧
    (∀ html searchTerms : String,
        extractFirstResultWithTitle html "bestbuy" searchTerms =
          (match firstValidatedPrice bestbuySelectors
              (numValid searchTerms) html with
           | some p => .num p
           | none => .noRes)) ∧
    (∀ html searchTerms : String,
        extractFirstResultWithTitle html "target" searchTerms =
          (match firstValidatedPrice targetSelectors
              (numValid searchTerms) html with
           | some p => .num p
           | none => .noRes)) ∧
    (∀ html url : String,
        strIncludes url "iphone" = false →
        strIncludes url "iPhone" = false →
        extractPriceFromHtml html url = (urlPrices html url).min?) := by
  refine ⟨fun html searchTerms => ?_, fun html searchTerms => ?_,
    fun html searchTerms => ?_, fun html searchTerms => ?_,
    fun html searchTerms => ?_, extractPriceFromHtml_eq_min⟩
  · exact amazonLoop_eq html searchTerms amazonSelectors
  · exact ebayLoop_eq html searchTerms ebaySelectors
  · exact numLoop_eq html searchTerms walmartSelectors
  · exact numLoop_eq html searchTerms bestbuySelectors
  · exact numLoop_eq html searchTerms targetSelectors

set_option maxRecDepth 4000 in
/-- Witness for the amended C6 on the concrete mixed body: the URL
extraction equals the pooled minimum. -/
theorem extraction_first_validated_rule_wins_witness :
    strIncludes ceAmazonUrl "iphone" = false ∧
    strIncludes ceAmazonUrl "iPhone" = false ∧
    extractPriceFromHtml ceMixedHtml ceAmazonUrl =
      (urlPrices ceMixedHtml ceAmazonUrl).min? :=
  ⟨by decide, by decide,
   extraction_first_validated_rule_wins.2.2.2.2.2 ceMixedHtml ceAmazonUrl
     (by decide) (by decide)⟩

end PriceMonitor
